import Mathlib

/-!
Shallow embedding of the inventory ledger and stock-mutation core of the
laravel-erp-smb repository (TypeScript/Drizzle handlers), together with
proofs of the specification's claims about it.

Conventions of the embedding:
* The database is a record of lists of rows.  Drizzle `select ... where id = x`
  becomes `List.find?`, `update ... where id = x` becomes a `List.map` guarded
  by an id test (updating every matching row, as SQL does), `insert` appends.
* Each handler is a pure function `... → DB → DB × Except String α`.  The
  returned `DB` is the committed post-state.  Handlers whose source wraps the
  body in `db.transaction` restore the original `DB` when the body throws
  (rollback); `updatePurchaseOrderStatus` has no transaction in the source, so
  its partial writes survive an error.
* `Date.now()` is modelled by an explicit `now : Nat` argument; timestamp
  columns store that value.
* JS numbers used for stocks and quantities are integers at the zod boundary
  (`z.number().int()`), modelled as `Int`.  Decimal columns that no claim
  observes (`unit_cost`, `estimated_hours`, `actual_hours`, prices) and
  presentation-only text columns (description, category, unit_of_measure,
  priority, assignee, dates other than timestamps) are elided.
* Thrown `Error(message)` values become `Except.error message` with the exact
  source message strings.
-/

namespace ErpSmb

/-- `stockAdjustmentTypeSchema` enum. -/
inductive AdjustmentType where
  | ADJUSTMENT
  | RECEIVED
  | CONSUMED
  | DAMAGED
  | LOST
deriving DecidableEq, Repr

/-- `workOrderStatusSchema` enum. -/
inductive WorkOrderStatus where
  | CREATED
  | IN_PROGRESS
  | COMPLETED
  | CANCELLED
deriving DecidableEq, Repr

/-- `purchaseOrderStatusSchema` enum. -/
inductive PurchaseOrderStatus where
  | DRAFT
  | PENDING
  | APPROVED
  | ORDERED
  | RECEIVED
  | CANCELLED
deriving DecidableEq, Repr

/-- A row of `itemsTable`.  The field `initial_stock` is specification
bookkeeping only: it records the `current_stock` the row was created with
(the spec's `initial_stock_at_creation`); no handler ever reads it and only
`createItem` sets it. -/
structure Item where
  id : Nat
  name : String
  sku : String
  current_stock : Int
  is_active : Bool
  updated_at : Nat
  initial_stock : Int
deriving DecidableEq, Repr

/-- A row of `stockAdjustmentsTable` (the append-only audit ledger). -/
structure StockAdjustment where
  item_id : Nat
  adjustment_type : AdjustmentType
  quantity_change : Int
  previous_stock : Int
  new_stock : Int
  reason : String
  reference_id : Option Nat
  reference_type : Option String
  created_by : String
deriving DecidableEq, Repr

/-- A row of `workOrdersTable`. -/
structure WorkOrder where
  id : Nat
  wo_number : String
  title : String
  status : WorkOrderStatus
  completed_date : Option Nat
  created_by : String
  updated_at : Nat
deriving DecidableEq, Repr

/-- A row of `workOrderItemsTable`. -/
structure WorkOrderItem where
  id : Nat
  work_order_id : Nat
  item_id : Nat
  quantity_planned : Int
  quantity_used : Int
deriving DecidableEq, Repr

/-- A row of `purchaseOrdersTable`. -/
structure PurchaseOrder where
  id : Nat
  po_number : String
  status : PurchaseOrderStatus
  approved_by : Option String
  created_by : String
  updated_at : Nat
deriving DecidableEq, Repr

/-- A row of `purchaseOrderItemsTable`. -/
structure PurchaseOrderItem where
  id : Nat
  purchase_order_id : Nat
  item_id : Nat
  quantity : Int
  received_quantity : Int
deriving DecidableEq, Repr

/-- The persistent store. -/
structure DB where
  items : List Item
  stockAdjustments : List StockAdjustment
  workOrders : List WorkOrder
  workOrderItems : List WorkOrderItem
  purchaseOrders : List PurchaseOrder
  purchaseOrderItems : List PurchaseOrderItem
deriving DecidableEq, Repr

/-- `select from items where id = i` (first row). -/
def findItem (db : DB) (i : Nat) : Option Item :=
  db.items.find? (fun it => it.id == i)

/-- `select from work_orders where id = i` (first row). -/
def findWorkOrder (db : DB) (i : Nat) : Option WorkOrder :=
  db.workOrders.find? (fun wo => wo.id == i)

/-- `select from purchase_orders where id = i` (first row). -/
def findPurchaseOrder (db : DB) (i : Nat) : Option PurchaseOrder :=
  db.purchaseOrders.find? (fun po => po.id == i)

/-- `select from purchase_order_items where id = i` (first row). -/
def findPOItem (db : DB) (i : Nat) : Option PurchaseOrderItem :=
  db.purchaseOrderItems.find? (fun l => l.id == i)

/-- `update items set current_stock = s, updated_at = now where id = i`. -/
def setItemStock (db : DB) (i : Nat) (s : Int) (now : Nat) : DB :=
  { db with items := db.items.map (fun it =>
      if it.id == i then { it with current_stock := s, updated_at := now } else it) }

/-- `insert into stock_adjustments values (adj)`. -/
def appendAdjustment (db : DB) (adj : StockAdjustment) : DB :=
  { db with stockAdjustments := db.stockAdjustments ++ [adj] }

/-- `update purchase_order_items set received_quantity = q where id = i`. -/
def setLineReceived (db : DB) (i : Nat) (q : Int) : DB :=
  { db with purchaseOrderItems := db.purchaseOrderItems.map (fun l =>
      if l.id == i then { l with received_quantity := q } else l) }

/-- `update work_orders set ... where id = i` with a row-level transform. -/
def updateWorkOrderRow (db : DB) (i : Nat) (f : WorkOrder → WorkOrder) : DB :=
  { db with workOrders := db.workOrders.map (fun wo =>
      if wo.id == i then f wo else wo) }

/-- `update purchase_orders set ... where id = i` with a row-level transform. -/
def updatePurchaseOrderRow (db : DB) (i : Nat) (f : PurchaseOrder → PurchaseOrder) : DB :=
  { db with purchaseOrders := db.purchaseOrders.map (fun po =>
      if po.id == i then f po else po) }

/-- JS `x || null` on an optional numeric id: `0` is falsy and collapses to
`null` (`input.reference_id || null` in `createStockAdjustment`). -/
def orNullNat : Option Nat → Option Nat
  | some 0 => none
  | some n => some (n : Nat)
  | none => none

/-- JS `x || null` on an optional string: `""` is falsy and collapses to
`null` (`input.reference_type || null` in `createStockAdjustment`). -/
def orNullStr : Option String → Option String
  | some "" => none
  | some s => some s
  | none => none

/-- Error message of `createStockAdjustment` when the item is missing. -/
def itemNotFoundIdMsg (i : Nat) : String := s!"Item with ID {i} not found"

/-- Error message of `updateItem` / `updateWorkOrder` / PO receiving when the
item is missing. -/
def itemNotFoundMsg (i : Nat) : String := s!"Item with id {i} not found"

/-- Error message of `createStockAdjustment` when the delta would drive stock
negative. -/
def negativeStockMsg (prev change result : Int) : String :=
  s!"Stock adjustment would result in negative stock. Current: {prev}, Change: {change}, Result: {result}"

/-- Error message of `updateWorkOrder` when the work order is missing. -/
def workOrderNotFoundMsg (i : Nat) : String := s!"Work order with id {i} not found"

/-- Error message of `completeWorkOrder` when the work order is missing. -/
def workOrderNotFoundIdMsg (i : Nat) : String := s!"Work order with ID {i} not found"

/-- Error message of `completeWorkOrder` on an already completed order. -/
def alreadyCompletedMsg (i : Nat) : String := s!"Work order {i} is already completed"

/-- Error message of `completeWorkOrder` on a cancelled order. -/
def cancelledWorkOrderMsg (i : Nat) : String := s!"Cannot complete cancelled work order {i}"

/-- Insufficient-stock message of the generic `updateWorkOrder` path. -/
def insufficientUpdateMsg (name : String) (cur req : Int) : String :=
  s!"Insufficient stock for item {name}. Current: {cur}, Required: {req}"

/-- Insufficient-stock message of the dedicated `completeWorkOrder` path. -/
def insufficientCompleteMsg (name : String) (avail req : Int) : String :=
  s!"Insufficient stock for item {name}. Available: {avail}, Required: {req}"

/-- Error message of `updatePurchaseOrderStatus` when the order is missing. -/
def poNotFoundMsg (i : Nat) : String := s!"Purchase order with id {i} not found"

/-- `CONSUMED` row reason written by the generic `updateWorkOrder` path. -/
def consumedForMsg (won : String) : String := s!"Consumed for work order {won}"

/-- `CONSUMED` row reason written by the dedicated `completeWorkOrder` path. -/
def consumedInMsg (won : String) : String := s!"Consumed in work order {won}"

/-- `RECEIVED` row reason written by PO receiving. -/
def receivedFromMsg (pon : String) : String := s!"Items received from Purchase Order {pon}"

/-- `createStockAdjustmentInputSchema`. -/
structure CreateStockAdjustmentInput where
  item_id : Nat
  adjustment_type : AdjustmentType
  quantity_change : Int
  reason : String
  reference_id : Option Nat
  reference_type : Option String
deriving DecidableEq, Repr

/-- Handler `createStockAdjustment` (the ledger-engine `apply`): load the
item (NotFound otherwise), compute `new_stock`, reject a negative result,
otherwise insert the audit row and update the item's stock and `updated_at`.
All writes follow the validation, so an error leaves the store untouched. -/
def createStockAdjustment (input : CreateStockAdjustmentInput) (createdBy : String)
    (now : Nat) (db : DB) : DB × Except String StockAdjustment :=
  match findItem db input.item_id with
  | none => (db, .error (itemNotFoundIdMsg input.item_id))
  | some item =>
    let previousStock := item.current_stock
    let newStock := previousStock + input.quantity_change
    if newStock < 0 then
      (db, .error (negativeStockMsg previousStock input.quantity_change newStock))
    else
      let adj : StockAdjustment :=
        { item_id := input.item_id
          adjustment_type := input.adjustment_type
          quantity_change := input.quantity_change
          previous_stock := previousStock
          new_stock := newStock
          reason := input.reason
          reference_id := orNullNat input.reference_id
          reference_type := orNullStr input.reference_type
          created_by := createdBy }
      let db1 := appendAdjustment db adj
      let db2 := setItemStock db1 input.item_id newStock now
      (db2, .ok adj)

/-- `createItemInputSchema` (fields no claim observes are elided). -/
structure CreateItemInput where
  name : String
  sku : String
  current_stock : Int
deriving DecidableEq, Repr

/-- Fresh serial id for a new item row, strictly above every existing id. -/
def freshItemId (db : DB) : Nat :=
  db.items.foldr (fun it m => max it.id m) 0 + 1

/-- Handler `createItem`: inserts the row with `is_active = true` and the
input's `current_stock`.  The source deliberately writes NO stock-adjustment
row for a nonzero initial stock (the `if (input.current_stock > 0)` branch is
empty apart from comments). -/
def createItem (input : CreateItemInput) (now : Nat) (db : DB) : DB × Except String Item :=
  let createdItem : Item :=
    { id := freshItemId db
      name := input.name
      sku := input.sku
      current_stock := input.current_stock
      is_active := true
      updated_at := now
      initial_stock := input.current_stock }
  ({ db with items := db.items ++ [createdItem] }, .ok createdItem)

/-- `updateItemInputSchema` (optional fields no claim observes are elided;
at the zod boundary `current_stock` is `z.number().int().nonnegative()`). -/
structure UpdateItemInput where
  id : Nat
  name : Option String
  current_stock : Option Int
deriving DecidableEq, Repr

/-- Handler `updateItem`: loads the item (NotFound otherwise), applies the
supplied fields directly (including `current_stock`), bumps `updated_at`,
and, when the input's `current_stock` differs from the stored value, inserts
one ADJUSTMENT audit row recording the delta. -/
def updateItem (input : UpdateItemInput) (createdBy : String) (now : Nat)
    (db : DB) : DB × Except String Item :=
  match findItem db input.id with
  | none => (db, .error (itemNotFoundMsg input.id))
  | some existingItem =>
    let previousStock := existingItem.current_stock
    let updatedItem : Item :=
      { existingItem with
          name := input.name.getD existingItem.name
          current_stock := (input.current_stock).getD existingItem.current_stock
          updated_at := now }
    let db1 : DB :=
      { db with items := db.items.map (fun it =>
          if it.id == input.id then
            { it with
                name := input.name.getD it.name
                current_stock := (input.current_stock).getD it.current_stock
                updated_at := now }
          else it) }
    match input.current_stock with
    | some ns =>
      if ns ≠ previousStock then
        let adj : StockAdjustment :=
          { item_id := input.id
            adjustment_type := .ADJUSTMENT
            quantity_change := ns - previousStock
            previous_stock := previousStock
            new_stock := ns
            reason := "Manual stock adjustment via item update"
            reference_id := none
            reference_type := none
            created_by := createdBy }
        (appendAdjustment db1 adj, .ok updatedItem)
      else (db1, .ok updatedItem)
    | none => (db1, .ok updatedItem)

/-- `updateWorkOrderInputSchema` (fields no claim observes are elided;
`completed_date` distinguishes absent (`none`) from explicit null
(`some none`), as the source tests `!== undefined`). -/
structure UpdateWorkOrderInput where
  id : Nat
  title : Option String
  status : Option WorkOrderStatus
  completed_date : Option (Option Nat)
deriving DecidableEq, Repr

/-- Inventory-consumption loop of the generic `updateWorkOrder` path: for
each line with `quantity_used > 0`, load the item, reject an insufficient
stock (`newStock < 0`), update the stock and insert a CONSUMED row whose
`reason` is "Consumed for work order {wo_number}" and whose `created_by` is
the work order's creator. -/
def consumeLinesUpdate (woId : Nat) (wo : WorkOrder) (now : Nat) :
    List WorkOrderItem → DB → DB × Except String Unit
  | [], db => (db, .ok ())
  | line :: rest, db =>
    let quantityToDeduct := line.quantity_used
    if quantityToDeduct > 0 then
      match findItem db line.item_id with
      | none => (db, .error (itemNotFoundMsg line.item_id))
      | some item =>
        let previousStock := item.current_stock
        let newStock := previousStock - quantityToDeduct
        if newStock < 0 then
          (db, .error (insufficientUpdateMsg item.name previousStock quantityToDeduct))
        else
          let db1 := setItemStock db line.item_id newStock now
          let adj : StockAdjustment :=
            { item_id := line.item_id
              adjustment_type := .CONSUMED
              quantity_change := -quantityToDeduct
              previous_stock := previousStock
              new_stock := newStock
              reason := consumedForMsg wo.wo_number
              reference_id := some woId
              reference_type := some "work_order"
              created_by := wo.created_by }
          consumeLinesUpdate woId wo now rest (appendAdjustment db1 adj)
    else
      consumeLinesUpdate woId wo now rest db

/-- The work-order row value written by `updateWorkOrder` (`updateData`
applied to the current row; `completed_date` defaults to now when the call is
the completing transition and no explicit value was supplied). -/
def updatedWorkOrderOf (input : UpdateWorkOrderInput) (wo : WorkOrder) (now : Nat)
    (isCompleting : Bool) : WorkOrder :=
  { wo with
      title := input.title.getD wo.title
      status := (input.status).getD wo.status
      completed_date :=
        match input.completed_date with
        | some cd => cd
        | none => if isCompleting then some now else wo.completed_date
      updated_at := now }

/-- Transaction body of `updateWorkOrder`: update the work-order row, then,
when the update transitions a non-COMPLETED order into COMPLETED, run the
consumption loop over the order's lines. -/
def updateWorkOrderTx (input : UpdateWorkOrderInput) (currentWorkOrder : WorkOrder)
    (now : Nat) (db : DB) : DB × Except String WorkOrder :=
  let isCompleting :=
    input.status == some .COMPLETED && currentWorkOrder.status != .COMPLETED
  let updatedWorkOrder : WorkOrder :=
    updatedWorkOrderOf input currentWorkOrder now isCompleting
  let db1 := updateWorkOrderRow db input.id (fun _ => updatedWorkOrder)
  if isCompleting then
    let workOrderItems := db1.workOrderItems.filter (fun l => l.work_order_id == input.id)
    match consumeLinesUpdate input.id updatedWorkOrder now workOrderItems db1 with
    | (db2, .ok _) => (db2, .ok updatedWorkOrder)
    | (db2, .error e) => (db2, .error e)
  else
    (db1, .ok updatedWorkOrder)

/-- Handler `updateWorkOrder`: check existence, then run the body inside
`db.transaction`, so any error rolls the store back to its pre-call state.
Note the source performs NO status-precondition checks: completing an
already-COMPLETED order is a silent no-op for consumption and completing a
CANCELLED order is not rejected. -/
def updateWorkOrder (input : UpdateWorkOrderInput) (now : Nat) (db : DB) :
    DB × Except String WorkOrder :=
  match findWorkOrder db input.id with
  | none => (db, .error (workOrderNotFoundMsg input.id))
  | some currentWorkOrder =>
    match updateWorkOrderTx input currentWorkOrder now db with
    | (_, .error e) => (db, .error e)
    | (db1, .ok wo) => (db1, .ok wo)

/-- Inventory-consumption loop of the dedicated `completeWorkOrder` path:
identical stock arithmetic, but the guard reads `current_stock <
quantity_used`, the message uses "Available:", the `reason` is
"Consumed in work order {wo_number}" and `created_by` is the completing
actor. -/
def consumeLinesComplete (workOrderId : Nat) (woNumber completedBy : String) (now : Nat) :
    List WorkOrderItem → DB → DB × Except String Unit
  | [], db => (db, .ok ())
  | line :: rest, db =>
    if line.quantity_used > 0 then
      match findItem db line.item_id with
      | none => (db, .error (itemNotFoundIdMsg line.item_id))
      | some item =>
        let quantityToDeduct := line.quantity_used
        if item.current_stock < quantityToDeduct then
          (db, .error (insufficientCompleteMsg item.name item.current_stock quantityToDeduct))
        else
          let previousStock := item.current_stock
          let newStock := previousStock - quantityToDeduct
          let db1 := setItemStock db line.item_id newStock now
          let adj : StockAdjustment :=
            { item_id := line.item_id
              adjustment_type := .CONSUMED
              quantity_change := -quantityToDeduct
              previous_stock := previousStock
              new_stock := newStock
              reason := consumedInMsg woNumber
              reference_id := some workOrderId
              reference_type := some "work_order"
              created_by := completedBy }
          consumeLinesComplete workOrderId woNumber completedBy now rest (appendAdjustment db1 adj)
    else
      consumeLinesComplete workOrderId woNumber completedBy now rest db

/-- Transaction body of `completeWorkOrder`: existence and status
preconditions (AlreadyCompleted, cancelled), consumption loop, then set
`status = COMPLETED` and `completed_date`. -/
def completeWorkOrderTx (workOrderId : Nat) (completedBy : String) (now : Nat)
    (db : DB) : DB × Except String WorkOrder :=
  match findWorkOrder db workOrderId with
  | none => (db, .error (workOrderNotFoundIdMsg workOrderId))
  | some existingWorkOrder =>
    if existingWorkOrder.status = .COMPLETED then
      (db, .error (alreadyCompletedMsg workOrderId))
    else if existingWorkOrder.status = .CANCELLED then
      (db, .error (cancelledWorkOrderMsg workOrderId))
    else
      let workOrderItems := db.workOrderItems.filter (fun l => l.work_order_id == workOrderId)
      match consumeLinesComplete workOrderId existingWorkOrder.wo_number completedBy now
          workOrderItems db with
      | (db1, .error e) => (db1, .error e)
      | (db1, .ok _) =>
        let updatedWorkOrder : WorkOrder :=
          { existingWorkOrder with
              status := .COMPLETED
              completed_date := some now
              updated_at := now }
        (updateWorkOrderRow db1 workOrderId (fun _ => updatedWorkOrder), .ok updatedWorkOrder)

/-- Handler `completeWorkOrder` (the `actual_hours` decimal argument is
elided: no claim observes it).  The whole body runs inside `db.transaction`,
so any error rolls the store back to its pre-call state. -/
def completeWorkOrder (workOrderId : Nat) (completedBy : String) (now : Nat)
    (db : DB) : DB × Except String WorkOrder :=
  match completeWorkOrderTx workOrderId completedBy now db with
  | (_, .error e) => (db, .error e)
  | (db1, .ok wo) => (db1, .ok wo)

/-- `updatePurchaseOrderStatusInputSchema`. -/
structure UpdatePurchaseOrderStatusInput where
  id : Nat
  status : PurchaseOrderStatus
deriving DecidableEq, Repr

/-- The RECEIVED audit row the receiving loop writes for one line, priced at
the item state `it` it read. -/
def receivedRowOf (poId : Nat) (poNumber updatedBy : String)
    (l : PurchaseOrderItem) (it : Item) : StockAdjustment :=
  { item_id := l.item_id
    adjustment_type := .RECEIVED
    quantity_change := l.quantity - l.received_quantity
    previous_stock := it.current_stock
    new_stock := it.current_stock + (l.quantity - l.received_quantity)
    reason := receivedFromMsg poNumber
    reference_id := some poId
    reference_type := some "purchase_order"
    created_by := updatedBy }

/-- The writes the receiving loop performs for one line whose item resolved
to `it`: set the item's stock to `previous + remainder` (bumping
`updated_at`), rewrite the line's `received_quantity` to `quantity`, and,
only when the remainder is positive, insert the RECEIVED audit row. -/
def receiveStep (poId : Nat) (poNumber updatedBy : String) (now : Nat)
    (l : PurchaseOrderItem) (it : Item) (db : DB) : DB :=
  let quantityToReceive := l.quantity - l.received_quantity
  let newStock := it.current_stock + quantityToReceive
  let db1 := setItemStock db l.item_id newStock now
  let db2 := setLineReceived db1 l.id l.quantity
  if quantityToReceive > 0 then
    appendAdjustment db2 (receivedRowOf poId poNumber updatedBy l it)
  else db2

/-- Receiving loop of `updatePurchaseOrderStatus`: for each line, load the
item (error if missing), then perform the line's writes (`receiveStep`).
The item and line rows are rewritten even when the remainder is zero. -/
def receiveLines (poId : Nat) (poNumber updatedBy : String) (now : Nat) :
    List PurchaseOrderItem → DB → DB × Except String Unit
  | [], db => (db, .ok ())
  | poItem :: rest, db =>
    match findItem db poItem.item_id with
    | none => (db, .error (itemNotFoundMsg poItem.item_id))
    | some item =>
      receiveLines poId poNumber updatedBy now rest
        (receiveStep poId poNumber updatedBy now poItem item db)

/-- Handler `updatePurchaseOrderStatus`: load the order (NotFound otherwise),
set the requested status unconditionally (plus `approved_by` on APPROVED) and
bump `updated_at`, then, when the target status is RECEIVED, run the
receiving loop.  The source wraps NOTHING in a transaction: the status write
precedes the loop and a mid-loop error leaves every earlier write committed. -/
def updatePurchaseOrderStatus (input : UpdatePurchaseOrderStatusInput)
    (updatedBy : String) (now : Nat) (db : DB) : DB × Except String PurchaseOrder :=
  match findPurchaseOrder db input.id with
  | none => (db, .error (poNotFoundMsg input.id))
  | some currentPO =>
    let updatedPO : PurchaseOrder :=
      { currentPO with
          status := input.status
          approved_by :=
            if input.status = .APPROVED then some updatedBy else currentPO.approved_by
          updated_at := now }
    let db1 := updatePurchaseOrderRow db input.id (fun _ => updatedPO)
    if input.status = .RECEIVED then
      let poItems := db1.purchaseOrderItems.filter (fun l => l.purchase_order_id == input.id)
      match receiveLines input.id currentPO.po_number updatedBy now poItems db1 with
      | (db2, .ok _) => (db2, .ok updatedPO)
      | (db2, .error e) => (db2, .error e)
    else
      (db1, .ok updatedPO)

/-! ### Stock-affecting operations and state invariants -/

/-- One stock-affecting call, as enumerated by the spec: item creation,
manual ledger adjustment, generic item update, generic work-order update,
dedicated work-order completion, purchase-order status transition. -/
inductive StockOp where
  | create (input : CreateItemInput) (now : Nat)
  | adjust (input : CreateStockAdjustmentInput) (createdBy : String) (now : Nat)
  | updItem (input : UpdateItemInput) (createdBy : String) (now : Nat)
  | updWO (input : UpdateWorkOrderInput) (now : Nat)
  | completeWO (workOrderId : Nat) (completedBy : String) (now : Nat)
  | updPOStatus (input : UpdatePurchaseOrderStatusInput) (updatedBy : String) (now : Nat)
deriving Repr

/-- Committed post-state of one stock-affecting call. -/
def applyOp : StockOp → DB → DB
  | .create i n, db => (createItem i n db).1
  | .adjust i c n, db => (createStockAdjustment i c n db).1
  | .updItem i c n, db => (updateItem i c n db).1
  | .updWO i n, db => (updateWorkOrder i n db).1
  | .completeWO w c n, db => (completeWorkOrder w c n db).1
  | .updPOStatus i u n, db => (updatePurchaseOrderStatus i u n db).1

/-- Committed post-state of a sequence of stock-affecting calls. -/
def applyOps (ops : List StockOp) (db : DB) : DB :=
  ops.foldl (fun d o => applyOp o d) db

/-- The zod input validation relevant to stock: `current_stock` fields are
`z.number().int().nonnegative()` on both the create-item and update-item
input schemas. -/
def StockOp.Valid : StockOp → Prop
  | .create i _ => 0 ≤ i.current_stock
  | .updItem i _ _ => ∀ s, i.current_stock = some s → 0 ≤ s
  | _ => True

/-- No item row holds a negative stock. -/
def StocksNonneg (db : DB) : Prop := ∀ it ∈ db.items, 0 ≤ it.current_stock

/-- Every purchase-order line's received quantity is at most its ordered
quantity (established at line creation, where `received_quantity` is 0 and
`quantity` is positive). -/
def ReceivedWithinQuantity (db : DB) : Prop :=
  ∀ l ∈ db.purchaseOrderItems, l.received_quantity ≤ l.quantity

/-- Purchase-order line ids are unique (serial primary key). -/
def LineIdsNodup (db : DB) : Prop := (db.purchaseOrderItems.map (fun l => l.id)).Nodup

/-- Item ids are unique (serial primary key). -/
def ItemIdsNodup (db : DB) : Prop := (db.items.map (fun it => it.id)).Nodup

/-- Every ledger row points at an existing item. -/
def AdjRefsExist (db : DB) : Prop :=
  ∀ a ∈ db.stockAdjustments, ∃ it ∈ db.items, it.id = a.item_id

/-- Sum of `quantity_change` over the ledger rows of one item. -/
def adjSum (db : DB) (i : Nat) : Int :=
  ((db.stockAdjustments.filter (fun a => a.item_id == i)).map
    (fun a => a.quantity_change)).sum

/-- The spec's conservation invariant: every item's stock is the stock it was
created with plus the sum of its ledger deltas. -/
def Conservation (db : DB) : Prop :=
  ∀ it ∈ db.items, it.current_stock = it.initial_stock + adjSum db it.id

/-- Invariant bundle needed for non-negativity preservation. -/
def NonnegInv (db : DB) : Prop :=
  StocksNonneg db ∧ ReceivedWithinQuantity db ∧ LineIdsNodup db

/-- Invariant bundle needed for conservation preservation. -/
def LedgerInv (db : DB) : Prop :=
  Conservation db ∧ AdjRefsExist db ∧ ItemIdsNodup db ∧
    ReceivedWithinQuantity db ∧ LineIdsNodup db

/-! ### Generic list and lookup lemmas -/

theorem find?_map_of_id {α : Type} {p : α → Bool} {g : α → α}
    (hg : ∀ a, p (g a) = p a) :
    ∀ l : List α, List.find? p (l.map g) = (List.find? p l).map g := by
  intro l
  induction l with
  | nil => simp
  | cons a t ih =>
    by_cases h : p a = true
    · simp [List.find?, hg a, h]
    · have h' : p a = false := by
        cases hpa : p a
        · rfl
        · exact absurd hpa h
      simp [List.find?, hg a, h', ih]

theorem findItem_setItemStock (db : DB) (i x : Nat) (s : Int) (now : Nat) :
    findItem (setItemStock db i s now) x =
      (findItem db x).map (fun it =>
        if it.id == i then { it with current_stock := s, updated_at := now } else it) := by
  unfold findItem setItemStock
  apply find?_map_of_id
  intro a
  by_cases h : a.id == i
  · simp [h]
  · simp [h]

theorem findItem_ne_of_setItemStock (db : DB) (i x : Nat) (s : Int) (now : Nat)
    (hne : x ≠ i) :
    findItem (setItemStock db i s now) x = findItem db x := by
  rw [findItem_setItemStock]
  cases hfind : findItem db x with
  | none => rfl
  | some it =>
    have hit : it.id = x := by
      have := List.find?_some hfind
      simpa using this
    simp [Option.map, hit, hne]

theorem findItem_mem {db : DB} {i : Nat} {it : Item} (h : findItem db i = some it) :
    it ∈ db.items ∧ it.id = i := by
  refine ⟨List.mem_of_find?_eq_some h, ?_⟩
  have := List.find?_some h
  simpa using this

theorem findItem_appendAdjustment (db : DB) (a : StockAdjustment) (x : Nat) :
    findItem (appendAdjustment db a) x = findItem db x := rfl

theorem findItem_setLineReceived (db : DB) (lid : Nat) (q : Int) (x : Nat) :
    findItem (setLineReceived db lid q) x = findItem db x := rfl

theorem find?_items_map (items : List Item) (g : Item → Item)
    (hg : ∀ a, (g a).id = a.id) (x : Nat) :
    (items.map g).find? (fun it => it.id == x) =
      (items.find? (fun it => it.id == x)).map g := by
  apply find?_map_of_id
  intro a
  simp [hg]

theorem findPurchaseOrder_mem {db : DB} {i : Nat} {po : PurchaseOrder}
    (h : findPurchaseOrder db i = some po) : po ∈ db.purchaseOrders ∧ po.id = i := by
  refine ⟨List.mem_of_find?_eq_some h, ?_⟩
  have := List.find?_some h
  simpa using this

theorem findWorkOrder_mem {db : DB} {i : Nat} {wo : WorkOrder}
    (h : findWorkOrder db i = some wo) : wo ∈ db.workOrders ∧ wo.id = i := by
  refine ⟨List.mem_of_find?_eq_some h, ?_⟩
  have := List.find?_some h
  simpa using this

theorem findPurchaseOrder_replaceRow (db : DB) (i x : Nat) (upd : PurchaseOrder)
    (hid : upd.id = i) :
    findPurchaseOrder (updatePurchaseOrderRow db i (fun _ => upd)) x =
      (findPurchaseOrder db x).map (fun po => if po.id == i then upd else po) := by
  unfold findPurchaseOrder updatePurchaseOrderRow
  apply find?_map_of_id
  intro a
  by_cases h : a.id == i
  · have ha : a.id = i := by simpa using h
    simp [h, hid, ha]
  · simp [h]

/-! ### C4: purchase-order receiving is not atomic (concrete run) -/

/-- Concrete store for the C4 run: one item in stock, one ORDERED purchase
order with two lines, the second line's item id (99) unresolvable. -/
def dbC4 : DB :=
  { items := [{ id := 10, name := "Widget", sku := "W-1", current_stock := 7,
                is_active := true, updated_at := 0, initial_stock := 7 }]
    stockAdjustments := []
    workOrders := []
    workOrderItems := []
    purchaseOrders := [{ id := 1, po_number := "PO-1", status := .ORDERED,
                         approved_by := none, created_by := "carol", updated_at := 0 }]
    purchaseOrderItems :=
      [{ id := 1, purchase_order_id := 1, item_id := 10, quantity := 5, received_quantity := 0 },
       { id := 2, purchase_order_id := 1, item_id := 99, quantity := 3, received_quantity := 0 }] }

/-- C4: transitioning the order to RECEIVED fails on the second line (item 99
unresolvable), yet the committed state shows the order already in RECEIVED,
the first item's stock raised from 7 to 12, the first line marked fully
received, and one adjustment row written.  The handler has no enclosing
transaction, so a part-way failure does not leave state as it was and the
status is written before the line mutations, contradicting the claim. -/
theorem C4_po_receiving_not_atomic :
    (updatePurchaseOrderStatus { id := 1, status := .RECEIVED } "bob" 5 dbC4).2 =
        .error (itemNotFoundMsg 99) ∧
    (findItem (updatePurchaseOrderStatus { id := 1, status := .RECEIVED } "bob" 5 dbC4).1 10).map
        (fun it => it.current_stock) = some 12 ∧
    (findPurchaseOrder (updatePurchaseOrderStatus { id := 1, status := .RECEIVED } "bob" 5 dbC4).1 1).map
        (fun po => po.status) = some .RECEIVED ∧
    (findPOItem (updatePurchaseOrderStatus { id := 1, status := .RECEIVED } "bob" 5 dbC4).1 1).map
        (fun l => l.received_quantity) = some 5 ∧
    (updatePurchaseOrderStatus { id := 1, status := .RECEIVED } "bob" 5 dbC4).1.stockAdjustments.length = 1 ∧
    (findItem dbC4 10).map (fun it => it.current_stock) = some 7 ∧
    (findPurchaseOrder dbC4 1).map (fun po => po.status) = some .ORDERED :=
  ⟨rfl, rfl, rfl, rfl, rfl, rfl, rfl⟩

/-! ### C9: purchase-order status transitions are unconstrained -/

/-- Concrete store for the C9 run: one purchase order already in RECEIVED. -/
def dbC9 : DB :=
  { items := []
    stockAdjustments := []
    workOrders := []
    workOrderItems := []
    purchaseOrders := [{ id := 1, po_number := "PO-9", status := .RECEIVED,
                         approved_by := none, created_by := "carol", updated_at := 0 }]
    purchaseOrderItems := [] }

/-- C9 counterexample: an order already in RECEIVED is moved to CANCELLED by
`updatePurchaseOrderStatus` without any error — RECEIVED is not terminal and
the claimed lifecycle is not enforced. -/
theorem C9_counterexample :
    (findPurchaseOrder dbC9 1).map (fun po => po.status) = some .RECEIVED ∧
    (updatePurchaseOrderStatus { id := 1, status := .CANCELLED } "bob" 5 dbC9).2 =
      .ok { id := 1, po_number := "PO-9", status := .CANCELLED, approved_by := none,
            created_by := "carol", updated_at := 5 } ∧
    (findPurchaseOrder (updatePurchaseOrderStatus { id := 1, status := .CANCELLED } "bob" 5 dbC9).1 1).map
        (fun po => po.status) = some .CANCELLED :=
  ⟨rfl, rfl, rfl⟩

/-- C9 amended: `updatePurchaseOrderStatus` enforces no lifecycle order at
all.  For every existing order and every requested non-RECEIVED status —
including CANCELLED on an order already RECEIVED, or DRAFT on a RECEIVED
order — the call succeeds and simply stores the requested status (setting
`approved_by` when the target is APPROVED and bumping `updated_at`). -/
theorem C9_amended (db : DB) (input : UpdatePurchaseOrderStatusInput)
    (updatedBy : String) (now : Nat) (po : PurchaseOrder)
    (hpo : findPurchaseOrder db input.id = some po)
    (hns : input.status ≠ .RECEIVED) :
    (updatePurchaseOrderStatus input updatedBy now db).2 =
      .ok { po with
              status := input.status
              approved_by :=
                if input.status = .APPROVED then some updatedBy else po.approved_by
              updated_at := now } ∧
    (findPurchaseOrder (updatePurchaseOrderStatus input updatedBy now db).1 input.id).map
        (fun p => p.status) = some input.status := by
  have hpoid : po.id = input.id := (findPurchaseOrder_mem hpo).2
  unfold updatePurchaseOrderStatus
  rw [hpo]
  simp only [hns, if_false]
  constructor
  · trivial
  · have h2 := findPurchaseOrder_replaceRow db input.id input.id
      { po with
          status := input.status
          approved_by :=
            if input.status = .APPROVED then some updatedBy else po.approved_by
          updated_at := now } hpoid
    rw [h2, hpo]
    simp [hpoid]

/-- Closed witness for `C9_amended` at a concrete order in RECEIVED being
moved back to DRAFT. -/
theorem C9_amended_witness :
    (updatePurchaseOrderStatus { id := 1, status := .DRAFT } "bob" 7 dbC9).2 =
      .ok { id := 1, po_number := "PO-9", status := .DRAFT, approved_by := none,
            created_by := "carol", updated_at := 7 } ∧
    (findPurchaseOrder (updatePurchaseOrderStatus { id := 1, status := .DRAFT } "bob" 7 dbC9).1 1).map
        (fun p => p.status) = some .DRAFT := by
  have h := C9_amended dbC9 { id := 1, status := .DRAFT } "bob" 7
    { id := 1, po_number := "PO-9", status := .RECEIVED, approved_by := none,
      created_by := "carol", updated_at := 0 } rfl (by decide)
  simpa using h

/-! ### C8: generic item update audits stock changes (with a different reason string) -/

/-- Concrete store for the C8 run: one item with stock 5. -/
def dbC8 : DB :=
  { items := [{ id := 1, name := "Bolt", sku := "B-1", current_stock := 5,
                is_active := true, updated_at := 0, initial_stock := 5 }]
    stockAdjustments := []
    workOrders := []
    workOrderItems := []
    purchaseOrders := []
    purchaseOrderItems := [] }

/-- C8 counterexample: updating the item's stock from 5 to 8 writes exactly
one ADJUSTMENT row, but its reason is "Manual stock adjustment via item
update" (capital M, as the handler and its test assert), not the claimed
"manual stock adjustment via item update". -/
theorem C8_counterexample :
    ((updateItem { id := 1, name := none, current_stock := some 8 } "bob" 3 dbC8).1.stockAdjustments.map
      (fun a => a.reason)) = ["Manual stock adjustment via item update"] ∧
    ¬ ((updateItem { id := 1, name := none, current_stock := some 8 } "bob" 3 dbC8).1.stockAdjustments.map
      (fun a => a.reason)) = ["manual stock adjustment via item update"] :=
  ⟨rfl, by decide⟩

/-- Run characterization of `updateItem` when the input's `current_stock`
differs from the stored value: the committed state maps the target item row
to the new field values and appends the single ADJUSTMENT audit row. -/
theorem updateItem_run_changed (input : UpdateItemInput) (createdBy : String)
    (now : Nat) (db : DB) (it : Item) (ns : Int)
    (hit : findItem db input.id = some it)
    (hns : input.current_stock = some ns)
    (hdiff : ns ≠ it.current_stock) :
    updateItem input createdBy now db =
      ({ db with
           items := db.items.map (fun x =>
             if x.id == input.id then
               { x with
                   name := input.name.getD x.name
                   current_stock := ns
                   updated_at := now }
             else x)
           stockAdjustments := db.stockAdjustments ++
             [{ item_id := input.id
                adjustment_type := .ADJUSTMENT
                quantity_change := ns - it.current_stock
                previous_stock := it.current_stock
                new_stock := ns
                reason := "Manual stock adjustment via item update"
                reference_id := none
                reference_type := none
                created_by := createdBy }] },
       .ok { it with
               name := input.name.getD it.name
               current_stock := ns
               updated_at := now }) := by
  unfold updateItem
  rw [hit, hns]
  simp [hdiff, appendAdjustment]

/-- C8 amended: for every `updateItem` call whose `current_stock` differs
from the stored value, exactly one ADJUSTMENT row is created with
`quantity_change` = new minus stored, `previous_stock` = stored value,
`new_stock` = input value, and reason "Manual stock adjustment via item
update" (capital M); the item's stock is set to the input value and
`updateItem` fails with NotFound when the target id does not exist. -/
theorem C8_amended (input : UpdateItemInput) (createdBy : String) (now : Nat)
    (db : DB) (it : Item) (ns : Int)
    (hit : findItem db input.id = some it)
    (hns : input.current_stock = some ns)
    (hdiff : ns ≠ it.current_stock) :
    (updateItem input createdBy now db).2 =
      .ok { it with
              name := input.name.getD it.name
              current_stock := ns
              updated_at := now } ∧
    (updateItem input createdBy now db).1.stockAdjustments =
      db.stockAdjustments ++
        [{ item_id := input.id
           adjustment_type := .ADJUSTMENT
           quantity_change := ns - it.current_stock
           previous_stock := it.current_stock
           new_stock := ns
           reason := "Manual stock adjustment via item update"
           reference_id := none
           reference_type := none
           created_by := createdBy }] ∧
    (findItem (updateItem input createdBy now db).1 input.id).map
        (fun x => x.current_stock) = some ns ∧
    (∀ i2, findItem db i2 = none →
      updateItem { input with id := i2 } createdBy now db =
        (db, .error (itemNotFoundMsg i2))) := by
  have hitid : it.id = input.id := (findItem_mem hit).2
  have hrun := updateItem_run_changed input createdBy now db it ns hit hns hdiff
  refine ⟨?_, ?_, ?_, ?_⟩
  · rw [hrun]
  · rw [hrun]
  · rw [hrun]
    have hmap := find?_items_map db.items
      (fun x => if x.id == input.id then
        { x with
            name := input.name.getD x.name
            current_stock := ns
            updated_at := now }
        else x)
      (by
        intro a
        by_cases h : a.id == input.id
        · simp [h]
        · simp [h])
      input.id
    unfold findItem at hit ⊢
    simp only at hmap ⊢
    rw [hmap, hit]
    simp [hitid]
  · intro i2 h2
    unfold updateItem
    rw [h2]

/-- Closed witness for `C8_amended`: stock 5 updated to 8 yields one
ADJUSTMENT row with delta +3, and a missing id (42) yields NotFound. -/
theorem C8_amended_witness :
    (updateItem { id := 1, name := none, current_stock := some 8 } "bob" 3 dbC8).2 =
      .ok { id := 1, name := "Bolt", sku := "B-1", current_stock := 8,
            is_active := true, updated_at := 3, initial_stock := 5 } ∧
    (updateItem { id := 1, name := none, current_stock := some 8 } "bob" 3 dbC8).1.stockAdjustments =
      dbC8.stockAdjustments ++
        [{ item_id := 1
           adjustment_type := .ADJUSTMENT
           quantity_change := 3
           previous_stock := 5
           new_stock := 8
           reason := "Manual stock adjustment via item update"
           reference_id := none
           reference_type := none
           created_by := "bob" }] ∧
    (findItem (updateItem { id := 1, name := none, current_stock := some 8 } "bob" 3 dbC8).1 1).map
      (fun x => x.current_stock) = some 8 ∧
    updateItem { id := 42, name := none, current_stock := some 8 } "bob" 3 dbC8 =
      (dbC8, .error (itemNotFoundMsg 42)) := by
  have h := C8_amended { id := 1, name := none, current_stock := some 8 } "bob" 3 dbC8
    { id := 1, name := "Bolt", sku := "B-1", current_stock := 5,
      is_active := true, updated_at := 0, initial_stock := 5 } 8 rfl rfl (by decide)
  exact ⟨h.1, by simpa using h.2.1, h.2.2.1, h.2.2.2 42 rfl⟩

/-! ### C3: ledger-engine apply postcondition -/

theorem orNullNat_eq {o : Option Nat} (h : o ≠ some 0) : orNullNat o = o := by
  match o with
  | none => rfl
  | some 0 => exact absurd rfl h
  | some (n + 1) => rfl

theorem orNullStr_eq {o : Option String} (h : o ≠ some "") : orNullStr o = o := by
  match o with
  | none => rfl
  | some s =>
    unfold orNullStr
    by_cases hs : s = ""
    · exact absurd (by rw [hs]) h
    · simp [hs]

/-- C3: on an existing item where the delta keeps stock non-negative, the
ledger apply creates exactly one StockAdjustment row with `previous_stock`
equal to the stock immediately before the call, `new_stock = previous_stock +
quantity_change`, and the supplied type, reason, actor and reference
metadata; the item's stock becomes `new_stock` (with `updated_at` bumped) and
the row is returned.  A missing item id fails with NotFound.  A zero-delta
call is the `quantity_change = 0` instance (exercised in the witness).
The two reference hypotheses exclude JS-falsy reference values (`0`, `""`),
which the source's `|| null` collapses to null; ids are positive serials. -/
theorem C3_apply_postcondition (input : CreateStockAdjustmentInput) (createdBy : String)
    (now : Nat) (db : DB) (item : Item)
    (hit : findItem db input.item_id = some item)
    (hok : 0 ≤ item.current_stock + input.quantity_change)
    (hr1 : input.reference_id ≠ some 0)
    (hr2 : input.reference_type ≠ some "") :
    (createStockAdjustment input createdBy now db).2 =
      .ok { item_id := input.item_id
            adjustment_type := input.adjustment_type
            quantity_change := input.quantity_change
            previous_stock := item.current_stock
            new_stock := item.current_stock + input.quantity_change
            reason := input.reason
            reference_id := input.reference_id
            reference_type := input.reference_type
            created_by := createdBy } ∧
    (createStockAdjustment input createdBy now db).1.stockAdjustments =
      db.stockAdjustments ++
        [{ item_id := input.item_id
           adjustment_type := input.adjustment_type
           quantity_change := input.quantity_change
           previous_stock := item.current_stock
           new_stock := item.current_stock + input.quantity_change
           reason := input.reason
           reference_id := input.reference_id
           reference_type := input.reference_type
           created_by := createdBy }] ∧
    findItem (createStockAdjustment input createdBy now db).1 input.item_id =
      some { item with
               current_stock := item.current_stock + input.quantity_change
               updated_at := now } ∧
    (∀ i2, findItem db i2 = none →
      createStockAdjustment { input with item_id := i2 } createdBy now db =
        (db, .error (itemNotFoundIdMsg i2))) := by
  have hitid : item.id = input.item_id := (findItem_mem hit).2
  have hlt : ¬ (item.current_stock + input.quantity_change < 0) := not_lt.mpr hok
  refine ⟨?_, ?_, ?_, ?_⟩
  · unfold createStockAdjustment
    rw [hit]
    simp [hlt, orNullNat_eq hr1, orNullStr_eq hr2]
  · unfold createStockAdjustment
    rw [hit]
    simp [hlt, orNullNat_eq hr1, orNullStr_eq hr2, setItemStock, appendAdjustment]
  · unfold createStockAdjustment
    rw [hit]
    simp only [hlt, if_false]
    rw [findItem_setItemStock, findItem_appendAdjustment, hit]
    simp [hitid]
  · intro i2 h2
    unfold createStockAdjustment
    rw [h2]

/-- Concrete store for the C3 witness: one item with stock 100. -/
def dbC3 : DB :=
  { items := [{ id := 7, name := "Gear", sku := "G-1", current_stock := 100,
                is_active := true, updated_at := 0, initial_stock := 100 }]
    stockAdjustments := []
    workOrders := []
    workOrderItems := []
    purchaseOrders := []
    purchaseOrderItems := [] }

/-- Closed witness for `C3_apply_postcondition`: a -30 adjustment on stock
100 (the spec's stocktake scenario), a NotFound id, and an accepted
zero-delta adjustment that still writes its audit row. -/
theorem C3_apply_postcondition_witness :
    (createStockAdjustment
        { item_id := 7, adjustment_type := .ADJUSTMENT, quantity_change := -30,
          reason := "count", reference_id := none, reference_type := none }
        "amy" 4 dbC3).2 =
      .ok { item_id := 7, adjustment_type := .ADJUSTMENT, quantity_change := -30,
            previous_stock := 100, new_stock := 70, reason := "count",
            reference_id := none, reference_type := none, created_by := "amy" } ∧
    findItem (createStockAdjustment
        { item_id := 7, adjustment_type := .ADJUSTMENT, quantity_change := -30,
          reason := "count", reference_id := none, reference_type := none }
        "amy" 4 dbC3).1 7 =
      some { id := 7, name := "Gear", sku := "G-1", current_stock := 70,
             is_active := true, updated_at := 4, initial_stock := 100 } ∧
    createStockAdjustment
        { item_id := 42, adjustment_type := .ADJUSTMENT, quantity_change := -30,
          reason := "count", reference_id := none, reference_type := none }
        "amy" 4 dbC3 =
      (dbC3, .error (itemNotFoundIdMsg 42)) ∧
    (createStockAdjustment
        { item_id := 7, adjustment_type := .ADJUSTMENT, quantity_change := 0,
          reason := "verified, no change", reference_id := none, reference_type := none }
        "amy" 4 dbC3).1.stockAdjustments =
      dbC3.stockAdjustments ++
        [{ item_id := 7, adjustment_type := .ADJUSTMENT, quantity_change := 0,
           previous_stock := 100, new_stock := 100, reason := "verified, no change",
           reference_id := none, reference_type := none, created_by := "amy" }] := by
  have h1 := C3_apply_postcondition
    { item_id := 7, adjustment_type := .ADJUSTMENT, quantity_change := -30,
      reason := "count", reference_id := none, reference_type := none }
    "amy" 4 dbC3
    { id := 7, name := "Gear", sku := "G-1", current_stock := 100,
      is_active := true, updated_at := 0, initial_stock := 100 }
    rfl (by decide) (by decide) (by decide)
  have h0 := C3_apply_postcondition
    { item_id := 7, adjustment_type := .ADJUSTMENT, quantity_change := 0,
      reason := "verified, no change", reference_id := none, reference_type := none }
    "amy" 4 dbC3
    { id := 7, name := "Gear", sku := "G-1", current_stock := 100,
      is_active := true, updated_at := 0, initial_stock := 100 }
    rfl (by decide) (by decide) (by decide)
  refine ⟨h1.1, ?_, h1.2.2.2 42 rfl, by simpa using h0.2.1⟩
  have h3 := h1.2.2.1
  simpa using h3

/-! ### C5: the two completion entry points are not identical -/

theorem updateWorkOrderRow_adj (db : DB) (i : Nat) (f : WorkOrder → WorkOrder) :
    (updateWorkOrderRow db i f).stockAdjustments = db.stockAdjustments := rfl

theorem updateWorkOrderRow_items (db : DB) (i : Nat) (f : WorkOrder → WorkOrder) :
    (updateWorkOrderRow db i f).items = db.items := rfl

/-- Every ledger row in the committed state of the generic consumption loop
is either pre-existing or a CONSUMED row with the generic path's reason
("Consumed for work order …") and the work order CREATOR as `created_by`. -/
theorem consumeLinesUpdate_adj_mem (woId : Nat) (wo : WorkOrder) (now : Nat) :
    ∀ (lines : List WorkOrderItem) (db : DB),
      ∀ a ∈ (consumeLinesUpdate woId wo now lines db).1.stockAdjustments,
        a ∈ db.stockAdjustments ∨
          (a.adjustment_type = .CONSUMED ∧
           a.reason = consumedForMsg wo.wo_number ∧
           a.created_by = wo.created_by ∧
           a.reference_id = some woId ∧
           a.reference_type = some "work_order" ∧
           a.quantity_change < 0) := by
  intro lines
  induction lines with
  | nil =>
    intro db a ha
    exact Or.inl ha
  | cons line rest ih =>
    intro db a ha
    simp only [consumeLinesUpdate] at ha
    by_cases hq : line.quantity_used > 0
    · rw [if_pos hq] at ha
      cases hfind : findItem db line.item_id with
      | none =>
        rw [hfind] at ha
        exact Or.inl ha
      | some item =>
        rw [hfind] at ha
        dsimp only at ha
        by_cases hneg : item.current_stock - line.quantity_used < 0
        · rw [if_pos hneg] at ha
          exact Or.inl ha
        · rw [if_neg hneg] at ha
          rcases ih _ a ha with h | h
          · simp only [appendAdjustment, setItemStock, List.mem_append,
              List.mem_singleton] at h
            rcases h with h | h
            · exact Or.inl h
            · refine Or.inr ?_
              subst h
              refine ⟨rfl, rfl, rfl, rfl, rfl, ?_⟩
              simpa using hq
          · exact Or.inr h
    · rw [if_neg hq] at ha
      exact ih _ a ha

/-- The generic path's errors are only item-not-found or insufficient-stock
errors: no AlreadyCompleted or cancelled-state failure exists on this path. -/
theorem consumeLinesUpdate_error_shape (woId : Nat) (wo : WorkOrder) (now : Nat) :
    ∀ (lines : List WorkOrderItem) (db : DB) (e : String),
      (consumeLinesUpdate woId wo now lines db).2 = .error e →
        (∃ i, e = itemNotFoundMsg i) ∨ ∃ n c q, e = insufficientUpdateMsg n c q := by
  intro lines
  induction lines with
  | nil =>
    intro db e he
    exact absurd he (by simp [consumeLinesUpdate])
  | cons line rest ih =>
    intro db e he
    simp only [consumeLinesUpdate] at he
    by_cases hq : line.quantity_used > 0
    · rw [if_pos hq] at he
      cases hfind : findItem db line.item_id with
      | none =>
        rw [hfind] at he
        simp only [Except.error.injEq] at he
        exact Or.inl ⟨line.item_id, he.symm⟩
      | some item =>
        rw [hfind] at he
        dsimp only at he
        by_cases hneg : item.current_stock - line.quantity_used < 0
        · rw [if_pos hneg] at he
          simp only [Except.error.injEq] at he
          exact Or.inr ⟨item.name, item.current_stock, line.quantity_used, he.symm⟩
        · rw [if_neg hneg] at he
          exact ih _ e he
    · rw [if_neg hq] at he
      exact ih _ e he

/-- Concrete store for the C5 counterexample: a CANCELLED work order with one
consumption line, created by "alice". -/
def dbC5 : DB :=
  { items := [{ id := 1, name := "Bolt", sku := "B-1", current_stock := 10,
                is_active := true, updated_at := 0, initial_stock := 10 }]
    stockAdjustments := []
    workOrders := [{ id := 1, wo_number := "WO-1", title := "fix pump",
                     status := .CANCELLED, completed_date := none,
                     created_by := "alice", updated_at := 0 }]
    workOrderItems := [{ id := 1, work_order_id := 1, item_id := 1,
                         quantity_planned := 2, quantity_used := 2 }]
    purchaseOrders := []
    purchaseOrderItems := [] }

/-- The concrete generic-update input used in the C5 run: transition work
order 1 to COMPLETED. -/
def uwoInputC5 : UpdateWorkOrderInput :=
  { id := 1, title := none, status := some .COMPLETED, completed_date := none }

/-- C5 counterexample, refuting "identical consumption logic" on a concrete
CANCELLED work order: the generic update path succeeds (no InvalidState
failure) and consumes, writing a row with reason "Consumed for work order
WO-1" and `created_by` = the order's CREATOR "alice" (the generic path takes
no completing actor at all), while the dedicated `completeWorkOrder` path
fails on the same store with the cancelled-order error; moreover the two
paths' reason strings differ. -/
theorem C5_counterexample :
    (updateWorkOrder uwoInputC5 5 dbC5).2 =
      .ok { id := 1, wo_number := "WO-1", title := "fix pump",
            status := .COMPLETED, completed_date := some 5,
            created_by := "alice", updated_at := 5 } ∧
    ((updateWorkOrder uwoInputC5 5 dbC5).1.stockAdjustments.map
      (fun a => (a.reason, a.created_by))) =
      [("Consumed for work order WO-1", "alice")] ∧
    completeWorkOrder 1 "bob" 5 dbC5 = (dbC5, .error (cancelledWorkOrderMsg 1)) ∧
    ¬ consumedForMsg "WO-1" = consumedInMsg "WO-1" :=
  ⟨rfl, rfl, rfl, by decide⟩

/-- Completing through the generic path when the order is already COMPLETED
is a silent no-op for inventory: no error, no adjustment rows, items
untouched. -/
theorem updateWorkOrder_completed_noop (input : UpdateWorkOrderInput) (now : Nat)
    (db : DB) (wo : WorkOrder)
    (hwo : findWorkOrder db input.id = some wo)
    (hst : wo.status = .COMPLETED) :
    (updateWorkOrder input now db).1.stockAdjustments = db.stockAdjustments ∧
    (updateWorkOrder input now db).1.items = db.items ∧
    ∃ w, (updateWorkOrder input now db).2 = .ok w := by
  unfold updateWorkOrder updateWorkOrderTx
  rw [hwo]
  simp [hst, updateWorkOrderRow]

/-- Every ledger row committed by `updateWorkOrder` is either pre-existing or
a CONSUMED row carrying the generic path's reason and the work order
creator's identity. -/
theorem updateWorkOrder_adj_mem (input : UpdateWorkOrderInput) (now : Nat)
    (db : DB) (wo : WorkOrder)
    (hwo : findWorkOrder db input.id = some wo) :
    ∀ a ∈ (updateWorkOrder input now db).1.stockAdjustments,
      a ∈ db.stockAdjustments ∨
        (a.adjustment_type = .CONSUMED ∧
         a.reason = consumedForMsg wo.wo_number ∧
         a.created_by = wo.created_by ∧
         a.reference_id = some input.id ∧
         a.reference_type = some "work_order" ∧
         a.quantity_change < 0) := by
  intro a ha
  unfold updateWorkOrder at ha
  rw [hwo] at ha
  dsimp only at ha
  unfold updateWorkOrderTx at ha
  dsimp only at ha
  by_cases hc : (input.status == some WorkOrderStatus.COMPLETED &&
      wo.status != WorkOrderStatus.COMPLETED) = true
  · rw [if_pos hc] at ha
    generalize hloop : consumeLinesUpdate input.id _ now _ _ = res at ha
    obtain ⟨db2, r⟩ := res
    have hdb2 := congrArg Prod.fst hloop
    cases r with
    | error e =>
      dsimp only at ha
      exact Or.inl ha
    | ok u =>
      dsimp only at ha
      rcases consumeLinesUpdate_adj_mem _ _ _ _ _ a (by rw [hloop]; exact ha) with h | h
      · rw [updateWorkOrderRow_adj] at h
        exact Or.inl h
      · exact Or.inr h
  · rw [if_neg hc] at ha
    dsimp only at ha
    rw [updateWorkOrderRow_adj] at ha
    exact Or.inl ha

/-- The generic path's only failure modes past the existence check are
item-not-found and insufficient-stock: there is no AlreadyCompleted and no
cancelled-state error on this path. -/
theorem updateWorkOrder_error_shape (input : UpdateWorkOrderInput) (now : Nat)
    (db : DB) (wo : WorkOrder)
    (hwo : findWorkOrder db input.id = some wo) :
    ∀ e, (updateWorkOrder input now db).2 = .error e →
      (∃ i, e = itemNotFoundMsg i) ∨ ∃ n c q, e = insufficientUpdateMsg n c q := by
  intro e he
  unfold updateWorkOrder at he
  rw [hwo] at he
  dsimp only at he
  unfold updateWorkOrderTx at he
  dsimp only at he
  by_cases hc : (input.status == some WorkOrderStatus.COMPLETED &&
      wo.status != WorkOrderStatus.COMPLETED) = true
  · rw [if_pos hc] at he
    generalize hloop : consumeLinesUpdate input.id _ now _ _ = res at he
    obtain ⟨db2, r⟩ := res
    cases r with
    | error e2 =>
      dsimp only at he
      have he2 : e2 = e := by simpa using he
      subst he2
      exact consumeLinesUpdate_error_shape _ _ _ _ _ e2 (by rw [hloop])
    | ok u =>
      dsimp only at he
      simp at he
  · rw [if_neg hc] at he
    dsimp only at he
    simp at he

/-- C5 amended: transitioning into COMPLETED through the generic update
entry point is NOT identical to `completeWorkOrder`.  The generic path has no
status preconditions: an already-COMPLETED order is accepted with consumption
silently skipped (no AlreadyCompleted error, no rows, no stock change), a
CANCELLED order is completed and consumed without error, and the only errors
it can raise are item-not-found and insufficient-stock.  The rows it writes
are CONSUMED rows with reason "Consumed for work order {wo_number}" (not
"Consumed in …") and `created_by` equal to the work order's CREATOR — the
generic entry point receives no completing actor.  Re-attempting completion
on a COMPLETED order fires no further consumption. -/
theorem C5_amended (input : UpdateWorkOrderInput) (now : Nat) (db : DB)
    (wo : WorkOrder)
    (hwo : findWorkOrder db input.id = some wo)
    (_hinp : input.status = some .COMPLETED) :
    (wo.status = .COMPLETED →
      (updateWorkOrder input now db).1.stockAdjustments = db.stockAdjustments ∧
      (updateWorkOrder input now db).1.items = db.items ∧
      ∃ w, (updateWorkOrder input now db).2 = .ok w) ∧
    (∀ a ∈ (updateWorkOrder input now db).1.stockAdjustments,
      a ∈ db.stockAdjustments ∨
        (a.adjustment_type = .CONSUMED ∧
         a.reason = consumedForMsg wo.wo_number ∧
         a.created_by = wo.created_by ∧
         a.reference_id = some input.id ∧
         a.reference_type = some "work_order" ∧
         a.quantity_change < 0)) ∧
    (∀ e, (updateWorkOrder input now db).2 = .error e →
      (∃ i, e = itemNotFoundMsg i) ∨ ∃ n c q, e = insufficientUpdateMsg n c q) :=
  ⟨fun hst => updateWorkOrder_completed_noop input now db wo hwo hst,
   updateWorkOrder_adj_mem input now db wo hwo,
   updateWorkOrder_error_shape input now db wo hwo⟩

/-- Concrete store for the C5 witness: an already-COMPLETED work order with a
consumption line. -/
def dbC5W : DB :=
  { items := [{ id := 1, name := "Bolt", sku := "B-1", current_stock := 10,
                is_active := true, updated_at := 0, initial_stock := 10 }]
    stockAdjustments := []
    workOrders := [{ id := 1, wo_number := "WO-2", title := "fix pump",
                     status := .COMPLETED, completed_date := some 1,
                     created_by := "alice", updated_at := 1 }]
    workOrderItems := [{ id := 1, work_order_id := 1, item_id := 1,
                         quantity_planned := 2, quantity_used := 2 }]
    purchaseOrders := []
    purchaseOrderItems := [] }

/-- Closed witness for `C5_amended`: re-attempting completion on an
already-COMPLETED order changes no ledger rows and no items and succeeds. -/
theorem C5_amended_witness :
    (updateWorkOrder uwoInputC5 9 dbC5W).1.stockAdjustments = dbC5W.stockAdjustments ∧
    (updateWorkOrder uwoInputC5 9 dbC5W).1.items = dbC5W.items ∧
    ∃ w, (updateWorkOrder uwoInputC5 9 dbC5W).2 = .ok w := by
  have h := C5_amended uwoInputC5 9 dbC5W
    { id := 1, wo_number := "WO-2", title := "fix pump", status := .COMPLETED,
      completed_date := some 1, created_by := "alice", updated_at := 1 }
    rfl rfl
  exact h.1 rfl

/-! ### C6: completion is atomic under failure -/

theorem updateWorkOrderRow_woItems (db : DB) (i : Nat) (f : WorkOrder → WorkOrder) :
    (updateWorkOrderRow db i f).workOrderItems = db.workOrderItems := rfl

theorem findItem_updateWorkOrderRow (db : DB) (i : Nat) (f : WorkOrder → WorkOrder)
    (x : Nat) : findItem (updateWorkOrderRow db i f) x = findItem db x := rfl

/-- Two-line consumption on the dedicated path with line A backed by
sufficient stock and line B insufficient errors with B's message. -/
theorem consumeTwo_complete (db : DB) (woId : Nat) (won cby : String) (now : Nat)
    (lA lB : WorkOrderItem) (A B : Item)
    (hA : findItem db lA.item_id = some A)
    (hB : findItem db lB.item_id = some B)
    (hneq : lB.item_id ≠ lA.item_id)
    (hqA : 0 < lA.quantity_used) (hsuffA : lA.quantity_used ≤ A.current_stock)
    (hqB : 0 < lB.quantity_used) (hinsuffB : B.current_stock < lB.quantity_used) :
    (consumeLinesComplete woId won cby now [lA, lB] db).2 =
      .error (insufficientCompleteMsg B.name B.current_stock lB.quantity_used) := by
  simp only [consumeLinesComplete]
  rw [if_pos hqA, hA]
  dsimp only
  rw [if_neg (not_lt.mpr hsuffA), if_pos hqB, findItem_appendAdjustment,
      findItem_ne_of_setItemStock _ _ _ _ _ hneq, hB]
  dsimp only
  rw [if_pos hinsuffB]

/-- Two-line consumption on the generic path with line A backed by sufficient
stock and line B insufficient errors with B's message. -/
theorem consumeTwo_update (db : DB) (woId : Nat) (wo : WorkOrder) (now : Nat)
    (lA lB : WorkOrderItem) (A B : Item)
    (hA : findItem db lA.item_id = some A)
    (hB : findItem db lB.item_id = some B)
    (hneq : lB.item_id ≠ lA.item_id)
    (hqA : 0 < lA.quantity_used) (hsuffA : lA.quantity_used ≤ A.current_stock)
    (hqB : 0 < lB.quantity_used) (hinsuffB : B.current_stock < lB.quantity_used) :
    (consumeLinesUpdate woId wo now [lA, lB] db).2 =
      .error (insufficientUpdateMsg B.name B.current_stock lB.quantity_used) := by
  simp only [consumeLinesUpdate]
  rw [if_pos hqA, hA]
  dsimp only
  rw [if_neg (not_lt.mpr (sub_nonneg.mpr hsuffA)), if_pos hqB,
      findItem_appendAdjustment, findItem_ne_of_setItemStock _ _ _ _ _ hneq, hB]
  dsimp only
  rw [if_pos (sub_neg.mpr hinsuffB)]

/-- C6: for a work order with consumption lines [A: sufficient stock, B:
insufficient stock], completion through EITHER entry point fails with the
insufficient-stock error naming item B, and — both handlers running inside
`db.transaction` — the committed state is exactly the pre-call store: both
items' stocks unchanged, zero adjustment rows written, the work order's
status unchanged. -/
theorem C6_completion_atomic_under_failure
    (db : DB) (woId : Nat) (wo : WorkOrder) (lA lB : WorkOrderItem) (A B : Item)
    (now : Nat) (completedBy : String) (input : UpdateWorkOrderInput)
    (hwo : findWorkOrder db woId = some wo)
    (hst1 : wo.status ≠ .COMPLETED) (hst2 : wo.status ≠ .CANCELLED)
    (hlines : db.workOrderItems.filter (fun l => l.work_order_id == woId) = [lA, lB])
    (hA : findItem db lA.item_id = some A)
    (hB : findItem db lB.item_id = some B)
    (hneq : lB.item_id ≠ lA.item_id)
    (hqA : 0 < lA.quantity_used) (hsuffA : lA.quantity_used ≤ A.current_stock)
    (hqB : 0 < lB.quantity_used) (hinsuffB : B.current_stock < lB.quantity_used)
    (hiid : input.id = woId) (hist : input.status = some .COMPLETED) :
    completeWorkOrder woId completedBy now db =
      (db, .error (insufficientCompleteMsg B.name B.current_stock lB.quantity_used)) ∧
    updateWorkOrder input now db =
      (db, .error (insufficientUpdateMsg B.name B.current_stock lB.quantity_used)) := by
  subst hiid
  constructor
  · unfold completeWorkOrder completeWorkOrderTx
    rw [hwo]
    dsimp only
    rw [if_neg hst1, if_neg hst2, hlines]
    have hloopE := consumeTwo_complete db input.id wo.wo_number completedBy now
      lA lB A B hA hB hneq hqA hsuffA hqB hinsuffB
    generalize hloop : consumeLinesComplete input.id wo.wo_number completedBy now
      [lA, lB] db = res at hloopE ⊢
    obtain ⟨db2, r⟩ := res
    dsimp only at hloopE
    subst hloopE
    rfl
  · unfold updateWorkOrder updateWorkOrderTx
    rw [hwo]
    dsimp only
    have hc : (input.status == some WorkOrderStatus.COMPLETED &&
        wo.status != WorkOrderStatus.COMPLETED) = true := by
      simp [hist, hst1]
    rw [if_pos hc, updateWorkOrderRow_woItems, hlines]
    have hA1 : findItem (updateWorkOrderRow db input.id (fun _ =>
        updatedWorkOrderOf input wo now
          (input.status == some WorkOrderStatus.COMPLETED &&
            wo.status != WorkOrderStatus.COMPLETED))) lA.item_id = some A := by
      rw [findItem_updateWorkOrderRow]
      exact hA
    have hB1 : findItem (updateWorkOrderRow db input.id (fun _ =>
        updatedWorkOrderOf input wo now
          (input.status == some WorkOrderStatus.COMPLETED &&
            wo.status != WorkOrderStatus.COMPLETED))) lB.item_id = some B := by
      rw [findItem_updateWorkOrderRow]
      exact hB
    have hloopE := consumeTwo_update
      (updateWorkOrderRow db input.id (fun _ =>
        updatedWorkOrderOf input wo now
          (input.status == some WorkOrderStatus.COMPLETED &&
            wo.status != WorkOrderStatus.COMPLETED)))
      input.id
      (updatedWorkOrderOf input wo now
        (input.status == some WorkOrderStatus.COMPLETED &&
          wo.status != WorkOrderStatus.COMPLETED))
      now lA lB A B hA1 hB1 hneq hqA hsuffA hqB hinsuffB
    generalize hloop : consumeLinesUpdate input.id
      (updatedWorkOrderOf input wo now
        (input.status == some WorkOrderStatus.COMPLETED &&
          wo.status != WorkOrderStatus.COMPLETED))
      now [lA, lB]
      (updateWorkOrderRow db input.id (fun _ =>
        updatedWorkOrderOf input wo now
          (input.status == some WorkOrderStatus.COMPLETED &&
            wo.status != WorkOrderStatus.COMPLETED))) = res at hloopE ⊢
    obtain ⟨db2, r⟩ := res
    dsimp only at hloopE
    subst hloopE
    rfl

/-- Concrete store for the C6 witness: item Alpha covers its line (10 ≥ 4),
item Beta does not (1 < 5). -/
def dbC6 : DB :=
  { items := [{ id := 1, name := "Alpha", sku := "A-1", current_stock := 10,
                is_active := true, updated_at := 0, initial_stock := 10 },
              { id := 2, name := "Beta", sku := "B-2", current_stock := 1,
                is_active := true, updated_at := 0, initial_stock := 1 }]
    stockAdjustments := []
    workOrders := [{ id := 3, wo_number := "WO-3", title := "overhaul",
                     status := .IN_PROGRESS, completed_date := none,
                     created_by := "alice", updated_at := 0 }]
    workOrderItems := [{ id := 1, work_order_id := 3, item_id := 1,
                         quantity_planned := 4, quantity_used := 4 },
                       { id := 2, work_order_id := 3, item_id := 2,
                         quantity_planned := 5, quantity_used := 5 }]
    purchaseOrders := []
    purchaseOrderItems := [] }

/-- The concrete generic-update input used in the C6 witness. -/
def uwoInputC6 : UpdateWorkOrderInput :=
  { id := 3, title := none, status := some .COMPLETED, completed_date := none }

/-- Closed witness for `C6_completion_atomic_under_failure`: both entry
points fail naming Beta and commit nothing. -/
theorem C6_completion_atomic_witness :
    completeWorkOrder 3 "bob" 7 dbC6 =
      (dbC6, .error (insufficientCompleteMsg "Beta" 1 5)) ∧
    updateWorkOrder uwoInputC6 7 dbC6 =
      (dbC6, .error (insufficientUpdateMsg "Beta" 1 5)) := by
  have h := C6_completion_atomic_under_failure dbC6 3
    { id := 3, wo_number := "WO-3", title := "overhaul", status := .IN_PROGRESS,
      completed_date := none, created_by := "alice", updated_at := 0 }
    { id := 1, work_order_id := 3, item_id := 1, quantity_planned := 4, quantity_used := 4 }
    { id := 2, work_order_id := 3, item_id := 2, quantity_planned := 5, quantity_used := 5 }
    { id := 1, name := "Alpha", sku := "A-1", current_stock := 10,
      is_active := true, updated_at := 0, initial_stock := 10 }
    { id := 2, name := "Beta", sku := "B-2", current_stock := 1,
      is_active := true, updated_at := 0, initial_stock := 1 }
    7 "bob" uwoInputC6
    rfl (by decide) (by decide) rfl rfl rfl (by decide)
    (by decide) (by decide) (by decide) (by decide) rfl rfl
  exact h

/-! ### C7 and C10: purchase-order receiving, per-line effect -/

theorem find?_beq_of_mem {α : Type} (f : α → Nat) :
    ∀ (L : List α) (a : α), a ∈ L → (L.map f).Nodup →
      L.find? (fun x => f x == f a) = some a := by
  intro L
  induction L with
  | nil =>
    intro a ha _
    cases ha
  | cons b t ih =>
    intro a ha hnd
    rw [List.map_cons] at hnd
    have hnd' := List.nodup_cons.mp hnd
    rcases List.mem_cons.mp ha with rfl | hat
    · simp [List.find?]
    · have hne : ¬ f b = f a := by
        intro he
        exact hnd'.1 (he ▸ List.mem_map_of_mem f hat)
      have hbeq : (f b == f a) = false := by
        simpa using hne
      simp only [List.find?, hbeq]
      exact ih a hat hnd'.2

theorem findItem_of_mem (db : DB) (it : Item)
    (hmem : it ∈ db.items) (hnodup : ItemIdsNodup db) :
    findItem db it.id = some it := by
  unfold ItemIdsNodup at hnodup
  exact find?_beq_of_mem (fun x => x.id) db.items it hmem hnodup

theorem findPOItem_of_mem (db : DB) (l : PurchaseOrderItem)
    (hmem : l ∈ db.purchaseOrderItems) (hnodup : LineIdsNodup db) :
    findPOItem db l.id = some l := by
  unfold LineIdsNodup at hnodup
  exact find?_beq_of_mem (fun x => x.id) db.purchaseOrderItems l hmem hnodup

theorem findPOItem_setLineReceived (db : DB) (lid : Nat) (q : Int) (y : Nat) :
    findPOItem (setLineReceived db lid q) y =
      (findPOItem db y).map (fun l =>
        if l.id == lid then { l with received_quantity := q } else l) := by
  unfold findPOItem setLineReceived
  apply find?_map_of_id
  intro a
  by_cases h : a.id == lid
  · simp [h]
  · simp [h]

theorem findPOItem_setItemStock (db : DB) (i : Nat) (s : Int) (now : Nat) (y : Nat) :
    findPOItem (setItemStock db i s now) y = findPOItem db y := rfl

theorem findPOItem_appendAdjustment (db : DB) (a : StockAdjustment) (y : Nat) :
    findPOItem (appendAdjustment db a) y = findPOItem db y := rfl

theorem mem_setLineReceived_of_ne (db : DB) (r : PurchaseOrderItem) (lid : Nat)
    (q : Int) (hmem : r ∈ db.purchaseOrderItems) (hne : r.id ≠ lid) :
    r ∈ (setLineReceived db lid q).purchaseOrderItems := by
  unfold setLineReceived
  dsimp only
  have heq : (fun l => if l.id == lid then { l with received_quantity := q } else l) r = r := by
    simp [hne]
  rw [← heq]
  exact List.mem_map_of_mem _ hmem

theorem lineIdsNodup_setLineReceived (db : DB) (lid : Nat) (q : Int)
    (h : LineIdsNodup db) : LineIdsNodup (setLineReceived db lid q) := by
  unfold LineIdsNodup at h ⊢
  unfold setLineReceived
  dsimp only
  rw [List.map_map]
  have heq : ((fun l => l.id) ∘
      (fun l => if l.id == lid then { l with received_quantity := q } else l)) =
      fun l : PurchaseOrderItem => l.id := by
    funext l
    dsimp only [Function.comp]
    split
    · rfl
    · rfl
  rw [heq]
  exact h

/-- Specification of the audit rows appended by the receiving loop: one
RECEIVED row per line whose unreceived remainder is positive, with
`previous_stock` read from the store at loop entry (the loop's later writes
never touch a processed line's item when line item ids are distinct). -/
def receivedRows (poId : Nat) (poNumber updatedBy : String) (db : DB) :
    List PurchaseOrderItem → List StockAdjustment
  | [] => []
  | l :: rest =>
    (match findItem db l.item_id with
     | none => []
     | some it =>
       if l.quantity - l.received_quantity > 0 then
         [receivedRowOf poId poNumber updatedBy l it]
       else []) ++ receivedRows poId poNumber updatedBy db rest

theorem receivedRows_congr (poId : Nat) (poNumber updatedBy : String) :
    ∀ (lines : List PurchaseOrderItem) (db db2 : DB),
      (∀ l ∈ lines, findItem db2 l.item_id = findItem db l.item_id) →
      receivedRows poId poNumber updatedBy db2 lines =
        receivedRows poId poNumber updatedBy db lines := by
  intro lines
  induction lines with
  | nil =>
    intro db db2 _
    rfl
  | cons l rest ih =>
    intro db db2 hf
    simp only [receivedRows]
    rw [hf l (List.mem_cons_self l rest), ih db db2 (fun x hx => hf x (List.mem_cons_of_mem l hx))]

theorem findPOItem_ne_of_setLineReceived (db : DB) (lid : Nat) (q : Int) (y : Nat)
    (hne : y ≠ lid) :
    findPOItem (setLineReceived db lid q) y = findPOItem db y := by
  rw [findPOItem_setLineReceived]
  cases hfind : findPOItem db y with
  | none => rfl
  | some r =>
    have hr : r.id = y := by
      have := List.find?_some hfind
      simpa using this
    simp [Option.map, hr, hne]

theorem receiveStep_adj (poId : Nat) (poNumber updatedBy : String) (now : Nat)
    (l : PurchaseOrderItem) (it : Item) (db : DB) :
    (receiveStep poId poNumber updatedBy now l it db).stockAdjustments =
      db.stockAdjustments ++
        (if l.quantity - l.received_quantity > 0 then
          [receivedRowOf poId poNumber updatedBy l it] else []) := by
  unfold receiveStep
  dsimp only
  split
  · rfl
  · simp [setLineReceived, setItemStock]

theorem findItem_receiveStep (poId : Nat) (poNumber updatedBy : String) (now : Nat)
    (l : PurchaseOrderItem) (it : Item) (db : DB) (x : Nat) :
    findItem (receiveStep poId poNumber updatedBy now l it db) x =
      findItem (setItemStock db l.item_id
        (it.current_stock + (l.quantity - l.received_quantity)) now) x := by
  unfold receiveStep
  dsimp only
  split
  · rfl
  · rfl

theorem findItem_receiveStep_self (poId : Nat) (poNumber updatedBy : String)
    (now : Nat) (l : PurchaseOrderItem) (it : Item) (db : DB)
    (hit : findItem db l.item_id = some it) :
    findItem (receiveStep poId poNumber updatedBy now l it db) l.item_id =
      some { it with
               current_stock := it.current_stock + (l.quantity - l.received_quantity)
               updated_at := now } := by
  have hitid : it.id = l.item_id := (findItem_mem hit).2
  rw [findItem_receiveStep, findItem_setItemStock, hit]
  simp [hitid]

theorem findItem_receiveStep_ne (poId : Nat) (poNumber updatedBy : String)
    (now : Nat) (l : PurchaseOrderItem) (it : Item) (db : DB) (x : Nat)
    (hne : x ≠ l.item_id) :
    findItem (receiveStep poId poNumber updatedBy now l it db) x = findItem db x := by
  rw [findItem_receiveStep, findItem_ne_of_setItemStock _ _ _ _ _ hne]

theorem findPOItem_receiveStep (poId : Nat) (poNumber updatedBy : String)
    (now : Nat) (l : PurchaseOrderItem) (it : Item) (db : DB) (y : Nat) :
    findPOItem (receiveStep poId poNumber updatedBy now l it db) y =
      findPOItem (setLineReceived db l.id l.quantity) y := by
  unfold receiveStep
  dsimp only
  split
  · rfl
  · rfl

theorem findPOItem_receiveStep_self (poId : Nat) (poNumber updatedBy : String)
    (now : Nat) (l : PurchaseOrderItem) (it : Item) (db : DB)
    (hmem : l ∈ db.purchaseOrderItems) (hnodup : LineIdsNodup db) :
    findPOItem (receiveStep poId poNumber updatedBy now l it db) l.id =
      some { l with received_quantity := l.quantity } := by
  rw [findPOItem_receiveStep, findPOItem_setLineReceived]
  have hfl : findPOItem db l.id = some l := findPOItem_of_mem db l hmem hnodup
  rw [hfl]
  simp

theorem findPOItem_receiveStep_ne (poId : Nat) (poNumber updatedBy : String)
    (now : Nat) (l : PurchaseOrderItem) (it : Item) (db : DB) (y : Nat)
    (hne : y ≠ l.id) :
    findPOItem (receiveStep poId poNumber updatedBy now l it db) y =
      findPOItem db y := by
  rw [findPOItem_receiveStep, findPOItem_ne_of_setLineReceived _ _ _ _ hne]

theorem receiveStep_po (poId : Nat) (poNumber updatedBy : String) (now : Nat)
    (l : PurchaseOrderItem) (it : Item) (db : DB) :
    (receiveStep poId poNumber updatedBy now l it db).purchaseOrders =
      db.purchaseOrders := by
  unfold receiveStep
  dsimp only
  split
  · rfl
  · rfl

theorem receiveStep_mem_lines (poId : Nat) (poNumber updatedBy : String)
    (now : Nat) (l : PurchaseOrderItem) (it : Item) (db : DB)
    (r : PurchaseOrderItem) (hmem : r ∈ db.purchaseOrderItems) (hne : r.id ≠ l.id) :
    r ∈ (receiveStep poId poNumber updatedBy now l it db).purchaseOrderItems := by
  unfold receiveStep
  dsimp only
  have hr : r ∈ (setLineReceived (setItemStock db l.item_id
      (it.current_stock + (l.quantity - l.received_quantity)) now) l.id
        l.quantity).purchaseOrderItems :=
    mem_setLineReceived_of_ne _ r l.id l.quantity hmem hne
  split
  · exact hr
  · exact hr

theorem receiveStep_lineIdsNodup (poId : Nat) (poNumber updatedBy : String)
    (now : Nat) (l : PurchaseOrderItem) (it : Item) (db : DB)
    (h : LineIdsNodup db) :
    LineIdsNodup (receiveStep poId poNumber updatedBy now l it db) := by
  unfold receiveStep
  dsimp only
  have h2 : LineIdsNodup (setLineReceived (setItemStock db l.item_id
      (it.current_stock + (l.quantity - l.received_quantity)) now) l.id l.quantity) :=
    lineIdsNodup_setLineReceived _ l.id l.quantity h
  split
  · exact h2
  · exact h2

theorem receiveLines_cons (poId : Nat) (poNumber updatedBy : String) (now : Nat)
    (l : PurchaseOrderItem) (rest : List PurchaseOrderItem) (db : DB) (it : Item)
    (hit : findItem db l.item_id = some it) :
    receiveLines poId poNumber updatedBy now (l :: rest) db =
      receiveLines poId poNumber updatedBy now rest
        (receiveStep poId poNumber updatedBy now l it db) := by
  simp only [receiveLines]
  rw [hit]

/-- Full specification of a successful run of the receiving loop over lines
whose items all resolve (line ids and line item ids pairwise distinct): it
succeeds, appends exactly the `receivedRows`, sets every line's item stock to
`previous + remainder` with `updated_at := now`, rewrites every line's
`received_quantity` to its `quantity`, and touches no purchase-order row and
no other item or line. -/
theorem receiveLines_spec (poId : Nat) (poNumber updatedBy : String) (now : Nat) :
    ∀ (lines : List PurchaseOrderItem) (db : DB),
      (∀ l ∈ lines, (findItem db l.item_id).isSome = true) →
      (lines.map (fun l => l.item_id)).Nodup →
      (lines.map (fun l => l.id)).Nodup →
      (∀ l ∈ lines, l ∈ db.purchaseOrderItems) →
      LineIdsNodup db →
      (receiveLines poId poNumber updatedBy now lines db).2 = .ok () ∧
      (receiveLines poId poNumber updatedBy now lines db).1.stockAdjustments =
        db.stockAdjustments ++ receivedRows poId poNumber updatedBy db lines ∧
      (∀ l ∈ lines, ∀ it, findItem db l.item_id = some it →
        findItem (receiveLines poId poNumber updatedBy now lines db).1 l.item_id =
          some { it with
                   current_stock := it.current_stock + (l.quantity - l.received_quantity)
                   updated_at := now }) ∧
      (∀ l ∈ lines,
        findPOItem (receiveLines poId poNumber updatedBy now lines db).1 l.id =
          some { l with received_quantity := l.quantity }) ∧
      (receiveLines poId poNumber updatedBy now lines db).1.purchaseOrders =
        db.purchaseOrders ∧
      (∀ x, x ∉ lines.map (fun l => l.item_id) →
        findItem (receiveLines poId poNumber updatedBy now lines db).1 x =
          findItem db x) ∧
      (∀ y, y ∉ lines.map (fun l => l.id) →
        findPOItem (receiveLines poId poNumber updatedBy now lines db).1 y =
          findPOItem db y) := by
  intro lines
  induction lines with
  | nil =>
    intro db _ _ _ _ _
    refine ⟨rfl, by simp [receiveLines, receivedRows], ?_, ?_, rfl, ?_, ?_⟩
    · intro l hl
      cases hl
    · intro l hl
      cases hl
    · intro x _
      rfl
    · intro y _
      rfl
  | cons l rest ih =>
    intro db hfound hitnd hlnd hsub hdbnd
    obtain ⟨it, hit⟩ := Option.isSome_iff_exists.mp (hfound l (List.mem_cons_self l rest))
    rw [receiveLines_cons poId poNumber updatedBy now l rest db it hit]
    rw [List.map_cons] at hitnd hlnd
    obtain ⟨hitn1, hitn2⟩ := List.nodup_cons.mp hitnd
    obtain ⟨hln1, hln2⟩ := List.nodup_cons.mp hlnd
    set db3 := receiveStep poId poNumber updatedBy now l it db with hdb3
    have hrest_ne_item : ∀ l' ∈ rest, l'.item_id ≠ l.item_id := by
      intro l' hl' he
      exact hitn1 (he ▸ List.mem_map_of_mem (fun x => x.item_id) hl')
    have hrest_ne_id : ∀ l' ∈ rest, l'.id ≠ l.id := by
      intro l' hl' he
      exact hln1 (he ▸ List.mem_map_of_mem (fun x => x.id) hl')
    have hfound' : ∀ l' ∈ rest, (findItem db3 l'.item_id).isSome = true := by
      intro l' hl'
      rw [hdb3, findItem_receiveStep_ne _ _ _ _ _ _ _ _ (hrest_ne_item l' hl')]
      exact hfound l' (List.mem_cons_of_mem l hl')
    have hsub' : ∀ l' ∈ rest, l' ∈ db3.purchaseOrderItems := by
      intro l' hl'
      rw [hdb3]
      exact receiveStep_mem_lines _ _ _ _ _ _ _ _
        (hsub l' (List.mem_cons_of_mem l hl')) (hrest_ne_id l' hl')
    have hdbnd' : LineIdsNodup db3 := by
      rw [hdb3]
      exact receiveStep_lineIdsNodup _ _ _ _ _ _ _ hdbnd
    obtain ⟨ih1, ih2, ih3, ih4, ih5, ih6, ih7⟩ := ih db3 hfound' hitn2 hln2 hsub' hdbnd'
    refine ⟨ih1, ?_, ?_, ?_, ?_, ?_, ?_⟩
    · have hcongr : receivedRows poId poNumber updatedBy db3 rest =
          receivedRows poId poNumber updatedBy db rest :=
        receivedRows_congr poId poNumber updatedBy rest db db3
          (fun l' hl' => by
            rw [hdb3]
            exact findItem_receiveStep_ne _ _ _ _ _ _ _ _ (hrest_ne_item l' hl'))
      rw [ih2, hcongr, hdb3, receiveStep_adj]
      simp only [receivedRows]
      rw [hit]
      rw [List.append_assoc]
    · intro l' hl' it' hit'
      rcases List.mem_cons.mp hl' with rfl | hl'
      · rw [hit] at hit'
        cases hit'
        rw [ih6 l'.item_id hitn1, hdb3]
        exact findItem_receiveStep_self poId poNumber updatedBy now l' it db hit
      · refine ih3 l' hl' it' ?_
        rw [hdb3, findItem_receiveStep_ne _ _ _ _ _ _ _ _ (hrest_ne_item l' hl')]
        exact hit'
    · intro l' hl'
      rcases List.mem_cons.mp hl' with rfl | hl'
      · rw [ih7 l'.id hln1, hdb3]
        exact findPOItem_receiveStep_self _ _ _ _ _ _ _
          (hsub l' (List.mem_cons_self l' rest)) hdbnd
      · exact ih4 l' hl'
    · rw [ih5, hdb3, receiveStep_po]
    · intro x hx
      simp only [List.map_cons, List.mem_cons, not_or] at hx
      rw [ih6 x hx.2, hdb3]
      exact findItem_receiveStep_ne _ _ _ _ _ _ _ _ hx.1
    · intro y hy
      simp only [List.map_cons, List.mem_cons, not_or] at hy
      rw [ih7 y hy.2, hdb3]
      exact findPOItem_receiveStep_ne _ _ _ _ _ _ _ _ hy.1

theorem updatePurchaseOrderRow_lines (db : DB) (i : Nat) (f : PurchaseOrder → PurchaseOrder) :
    (updatePurchaseOrderRow db i f).purchaseOrderItems = db.purchaseOrderItems := rfl

theorem findPurchaseOrder_eq_of_po_eq (db db2 : DB) (x : Nat)
    (h : db2.purchaseOrders = db.purchaseOrders) :
    findPurchaseOrder db2 x = findPurchaseOrder db x := by
  unfold findPurchaseOrder
  rw [h]

theorem receivedRows_nil_of_fully_received (poId : Nat) (poNumber updatedBy : String) :
    ∀ (lines : List PurchaseOrderItem) (db : DB),
      (∀ l ∈ lines, l.received_quantity = l.quantity) →
      receivedRows poId poNumber updatedBy db lines = [] := by
  intro lines
  induction lines with
  | nil =>
    intro db _
    rfl
  | cons l rest ih =>
    intro db h
    have hnot : ¬ (l.quantity - l.received_quantity > 0) := by
      rw [h l (List.mem_cons_self l rest)]
      simp
    simp only [receivedRows]
    rw [ih db (fun x hx => h x (List.mem_cons_of_mem l hx))]
    cases hfind : findItem db l.item_id with
    | none => simp
    | some it =>
      dsimp only
      rw [if_neg hnot]
      simp

/-- Full run of `updatePurchaseOrderStatus` toward RECEIVED on an order whose
lines' items all resolve (line item ids pairwise distinct): the call
succeeds returning the order with status RECEIVED and `updated_at := now`;
the ledger grows by exactly `receivedRows`; every line's item row is
rewritten to `previous + remainder` with `updated_at := now`; every line's
`received_quantity` is rewritten to its `quantity`; and the stored order has
status RECEIVED and `updated_at := now`. -/
theorem updatePOStatus_received_run (input : UpdatePurchaseOrderStatusInput)
    (updatedBy : String) (now : Nat) (db : DB) (po : PurchaseOrder)
    (hpo : findPurchaseOrder db input.id = some po)
    (hst : input.status = .RECEIVED)
    (hfound : ∀ l ∈ db.purchaseOrderItems.filter
        (fun l => l.purchase_order_id == input.id),
      (findItem db l.item_id).isSome = true)
    (hitnd : ((db.purchaseOrderItems.filter
        (fun l => l.purchase_order_id == input.id)).map
          (fun l => l.item_id)).Nodup)
    (hdbnd : LineIdsNodup db) :
    (updatePurchaseOrderStatus input updatedBy now db).2 =
      .ok { po with status := .RECEIVED, updated_at := now } ∧
    (updatePurchaseOrderStatus input updatedBy now db).1.stockAdjustments =
      db.stockAdjustments ++
        receivedRows input.id po.po_number updatedBy db
          (db.purchaseOrderItems.filter (fun l => l.purchase_order_id == input.id)) ∧
    (∀ l ∈ db.purchaseOrderItems.filter (fun l => l.purchase_order_id == input.id),
      ∀ it, findItem db l.item_id = some it →
        findItem (updatePurchaseOrderStatus input updatedBy now db).1 l.item_id =
          some { it with
                   current_stock := it.current_stock + (l.quantity - l.received_quantity)
                   updated_at := now }) ∧
    (∀ l ∈ db.purchaseOrderItems.filter (fun l => l.purchase_order_id == input.id),
      findPOItem (updatePurchaseOrderStatus input updatedBy now db).1 l.id =
        some { l with received_quantity := l.quantity }) ∧
    findPurchaseOrder (updatePurchaseOrderStatus input updatedBy now db).1 input.id =
      some { po with status := .RECEIVED, updated_at := now } := by
  have hpoid : po.id = input.id := (findPurchaseOrder_mem hpo).2
  have hlnd : ((db.purchaseOrderItems.filter
      (fun l => l.purchase_order_id == input.id)).map (fun l => l.id)).Nodup := by
    unfold LineIdsNodup at hdbnd
    exact ((List.filter_sublist db.purchaseOrderItems).map (fun l => l.id)).nodup hdbnd
  unfold updatePurchaseOrderStatus
  rw [hpo]
  dsimp only
  rw [hst]
  rw [if_neg (by decide : ¬ (PurchaseOrderStatus.RECEIVED = .APPROVED))]
  rw [if_pos rfl]
  rw [updatePurchaseOrderRow_lines]
  have hspec := receiveLines_spec input.id po.po_number updatedBy now
    (db.purchaseOrderItems.filter (fun l => l.purchase_order_id == input.id))
    (updatePurchaseOrderRow db input.id (fun _ =>
      { po with status := .RECEIVED, updated_at := now }))
    hfound hitnd hlnd
    (fun l hl => List.mem_of_mem_filter hl)
    hdbnd
  obtain ⟨s1, s2, s3, s4, s5, s6, s7⟩ := hspec
  generalize hloop : receiveLines input.id po.po_number updatedBy now
    (db.purchaseOrderItems.filter (fun l => l.purchase_order_id == input.id))
    (updatePurchaseOrderRow db input.id (fun _ =>
      { po with status := .RECEIVED, updated_at := now })) = res
    at s1 s2 s3 s4 s5 s6 s7 ⊢
  obtain ⟨db2, rr⟩ := res
  dsimp only at s1
  subst s1
  dsimp only
  have hrowsc : receivedRows input.id po.po_number updatedBy
      (updatePurchaseOrderRow db input.id (fun _ =>
        { po with status := .RECEIVED, updated_at := now }))
      (db.purchaseOrderItems.filter (fun l => l.purchase_order_id == input.id)) =
      receivedRows input.id po.po_number updatedBy db
      (db.purchaseOrderItems.filter (fun l => l.purchase_order_id == input.id)) :=
    receivedRows_congr _ _ _ _ _ _ (fun l _ => rfl)
  refine ⟨rfl, ?_, ?_, ?_, ?_⟩
  · dsimp only at s2
    rw [s2, hrowsc]
    rfl
  · intro l hl it hit
    dsimp only at s3
    exact s3 l hl it hit
  · intro l hl
    dsimp only at s4
    exact s4 l hl
  · dsimp only at s5
    rw [findPurchaseOrder_eq_of_po_eq _ _ _ s5]
    have h2 := findPurchaseOrder_replaceRow db input.id input.id
      { po with status := .RECEIVED, updated_at := now } hpoid
    rw [h2, hpo]
    simp [hpoid]

/-- C7: transitioning an order to RECEIVED reconciles exactly the unreceived
remainder of every line: each line's item stock grows by `quantity -
received_quantity` (with `updated_at` bumped), the line's
`received_quantity` becomes `quantity`, and the ledger grows by exactly the
`receivedRows` — one RECEIVED row per line with positive remainder, with
`quantity_change` = that remainder, referencing the order; lines with zero
remainder produce no row, so re-receiving a fully received order writes zero
new rows and leaves every stock and `received_quantity` value unchanged. -/
theorem C7_receiving_reconciles_remainder (input : UpdatePurchaseOrderStatusInput)
    (updatedBy : String) (now : Nat) (db : DB) (po : PurchaseOrder)
    (hpo : findPurchaseOrder db input.id = some po)
    (hst : input.status = .RECEIVED)
    (hfound : ∀ l ∈ db.purchaseOrderItems.filter
        (fun l => l.purchase_order_id == input.id),
      (findItem db l.item_id).isSome = true)
    (hitnd : ((db.purchaseOrderItems.filter
        (fun l => l.purchase_order_id == input.id)).map (fun l => l.item_id)).Nodup)
    (hdbnd : LineIdsNodup db) :
    (updatePurchaseOrderStatus input updatedBy now db).2 =
      .ok { po with status := .RECEIVED, updated_at := now } ∧
    (updatePurchaseOrderStatus input updatedBy now db).1.stockAdjustments =
      db.stockAdjustments ++
        receivedRows input.id po.po_number updatedBy db
          (db.purchaseOrderItems.filter (fun l => l.purchase_order_id == input.id)) ∧
    (∀ l ∈ db.purchaseOrderItems.filter (fun l => l.purchase_order_id == input.id),
      ∀ it, findItem db l.item_id = some it →
        findItem (updatePurchaseOrderStatus input updatedBy now db).1 l.item_id =
          some { it with
                   current_stock := it.current_stock + (l.quantity - l.received_quantity)
                   updated_at := now }) ∧
    (∀ l ∈ db.purchaseOrderItems.filter (fun l => l.purchase_order_id == input.id),
      findPOItem (updatePurchaseOrderStatus input updatedBy now db).1 l.id =
        some { l with received_quantity := l.quantity }) ∧
    ((∀ l ∈ db.purchaseOrderItems.filter (fun l => l.purchase_order_id == input.id),
        l.received_quantity = l.quantity) →
      (updatePurchaseOrderStatus input updatedBy now db).1.stockAdjustments =
        db.stockAdjustments ∧
      (∀ l ∈ db.purchaseOrderItems.filter (fun l => l.purchase_order_id == input.id),
        ∀ it, findItem db l.item_id = some it →
          findItem (updatePurchaseOrderStatus input updatedBy now db).1 l.item_id =
            some { it with updated_at := now }) ∧
      (∀ l ∈ db.purchaseOrderItems.filter (fun l => l.purchase_order_id == input.id),
        findPOItem (updatePurchaseOrderStatus input updatedBy now db).1 l.id =
          some l)) := by
  have run := updatePOStatus_received_run input updatedBy now db po hpo hst
    hfound hitnd hdbnd
  refine ⟨run.1, run.2.1, run.2.2.1, run.2.2.2.1, ?_⟩
  intro hfull
  refine ⟨?_, ?_, ?_⟩
  · rw [run.2.1, receivedRows_nil_of_fully_received _ _ _ _ _ hfull, List.append_nil]
  · intro l hl it hit
    have h := run.2.2.1 l hl it hit
    rw [hfull l hl] at h
    simpa using h
  · intro l hl
    have h := run.2.2.2.1 l hl
    have he : l.received_quantity = l.quantity := hfull l hl
    obtain ⟨a, b, c, d, e⟩ := l
    simp only at he h ⊢
    subst he
    exact h

/-- Concrete store for the C7 witness: the spec's scenario — PO line
`{item Y, quantity 20, received 5}`, item Y stock 30. -/
def dbC7 : DB :=
  { items := [{ id := 20, name := "Y", sku := "Y-1", current_stock := 30,
                is_active := true, updated_at := 0, initial_stock := 30 }]
    stockAdjustments := []
    workOrders := []
    workOrderItems := []
    purchaseOrders := [{ id := 2, po_number := "PO-2", status := .ORDERED,
                         approved_by := none, created_by := "carol", updated_at := 0 }]
    purchaseOrderItems := [{ id := 5, purchase_order_id := 2, item_id := 20,
                             quantity := 20, received_quantity := 5 }] }

/-- Closed witness for `C7_receiving_reconciles_remainder`: stock rises by
exactly 15 (not 20), `received_quantity` becomes 20, and the single RECEIVED
row carries `quantity_change = 15`. -/
theorem C7_receiving_witness :
    (updatePurchaseOrderStatus { id := 2, status := .RECEIVED } "bob" 6 dbC7).2 =
      .ok { id := 2, po_number := "PO-2", status := .RECEIVED, approved_by := none,
            created_by := "carol", updated_at := 6 } ∧
    (updatePurchaseOrderStatus { id := 2, status := .RECEIVED } "bob" 6 dbC7).1.stockAdjustments =
      [{ item_id := 20, adjustment_type := .RECEIVED, quantity_change := 15,
         previous_stock := 30, new_stock := 45,
         reason := "Items received from Purchase Order PO-2",
         reference_id := some 2, reference_type := some "purchase_order",
         created_by := "bob" }] ∧
    (findItem (updatePurchaseOrderStatus { id := 2, status := .RECEIVED } "bob" 6 dbC7).1 20).map
      (fun it => it.current_stock) = some 45 ∧
    (findPOItem (updatePurchaseOrderStatus { id := 2, status := .RECEIVED } "bob" 6 dbC7).1 5).map
      (fun l => l.received_quantity) = some 20 := by
  have h := C7_receiving_reconciles_remainder { id := 2, status := .RECEIVED }
    "bob" 6 dbC7
    { id := 2, po_number := "PO-2", status := .ORDERED, approved_by := none,
      created_by := "carol", updated_at := 0 }
    rfl rfl (by decide) (by decide) (by unfold LineIdsNodup; decide)
  have h3 := h.2.2.1
    { id := 5, purchase_order_id := 2, item_id := 20, quantity := 20,
      received_quantity := 5 }
    (by decide)
    { id := 20, name := "Y", sku := "Y-1", current_stock := 30,
      is_active := true, updated_at := 0, initial_stock := 30 }
    rfl
  have h4 := h.2.2.2.1
    { id := 5, purchase_order_id := 2, item_id := 20, quantity := 20,
      received_quantity := 5 }
    (by decide)
  refine ⟨h.1, h.2.1.trans (by rfl), ?_, ?_⟩
  · rw [h3]
    rfl
  · rw [h4]
    rfl

/-- C10: re-triggering RECEIVED on a fully-received order, though it writes
no adjustment row and changes no stock or received-quantity VALUE, is not
write-free: every line's item row is rewritten (same stock, `updated_at` set
to now), every line's `received_quantity` is rewritten, and the order row is
rewritten with `updated_at` set to now. -/
theorem C10_rereceive_not_write_free (input : UpdatePurchaseOrderStatusInput)
    (updatedBy : String) (now : Nat) (db : DB) (po : PurchaseOrder)
    (hpo : findPurchaseOrder db input.id = some po)
    (hst : input.status = .RECEIVED)
    (hfull : ∀ l ∈ db.purchaseOrderItems.filter
        (fun l => l.purchase_order_id == input.id),
      l.received_quantity = l.quantity)
    (hfound : ∀ l ∈ db.purchaseOrderItems.filter
        (fun l => l.purchase_order_id == input.id),
      (findItem db l.item_id).isSome = true)
    (hitnd : ((db.purchaseOrderItems.filter
        (fun l => l.purchase_order_id == input.id)).map (fun l => l.item_id)).Nodup)
    (hdbnd : LineIdsNodup db) :
    (updatePurchaseOrderStatus input updatedBy now db).2 =
      .ok { po with status := .RECEIVED, updated_at := now } ∧
    (updatePurchaseOrderStatus input updatedBy now db).1.stockAdjustments =
      db.stockAdjustments ∧
    (∀ l ∈ db.purchaseOrderItems.filter (fun l => l.purchase_order_id == input.id),
      ∀ it, findItem db l.item_id = some it →
        findItem (updatePurchaseOrderStatus input updatedBy now db).1 l.item_id =
          some { it with updated_at := now }) ∧
    (∀ l ∈ db.purchaseOrderItems.filter (fun l => l.purchase_order_id == input.id),
      findPOItem (updatePurchaseOrderStatus input updatedBy now db).1 l.id =
        some { l with received_quantity := l.quantity }) ∧
    findPurchaseOrder (updatePurchaseOrderStatus input updatedBy now db).1 input.id =
      some { po with status := .RECEIVED, updated_at := now } := by
  have run := updatePOStatus_received_run input updatedBy now db po hpo hst
    hfound hitnd hdbnd
  refine ⟨run.1, ?_, ?_, run.2.2.2.1, run.2.2.2.2⟩
  · rw [run.2.1, receivedRows_nil_of_fully_received _ _ _ _ _ hfull, List.append_nil]
  · intro l hl it hit
    have h := run.2.2.1 l hl it hit
    rw [hfull l hl] at h
    simpa using h

/-- Concrete store for the C10 witness: a fully-received line (20 of 20) on
an order already RECEIVED; item stock 45, all `updated_at` at 0. -/
def dbC10 : DB :=
  { items := [{ id := 20, name := "Y", sku := "Y-1", current_stock := 45,
                is_active := true, updated_at := 0, initial_stock := 30 }]
    stockAdjustments := []
    workOrders := []
    workOrderItems := []
    purchaseOrders := [{ id := 2, po_number := "PO-2", status := .RECEIVED,
                         approved_by := none, created_by := "carol", updated_at := 0 }]
    purchaseOrderItems := [{ id := 5, purchase_order_id := 2, item_id := 20,
                             quantity := 20, received_quantity := 20 }] }

/-- Closed witness for `C10_rereceive_not_write_free`: re-receiving writes no
ledger row and keeps stock at 45 and received at 20, yet the item row's and
the order row's `updated_at` jump from 0 to 9 — the rows were rewritten. -/
theorem C10_rereceive_witness :
    (updatePurchaseOrderStatus { id := 2, status := .RECEIVED } "bob" 9 dbC10).1.stockAdjustments =
      dbC10.stockAdjustments ∧
    findItem (updatePurchaseOrderStatus { id := 2, status := .RECEIVED } "bob" 9 dbC10).1 20 =
      some { id := 20, name := "Y", sku := "Y-1", current_stock := 45,
             is_active := true, updated_at := 9, initial_stock := 30 } ∧
    (findItem dbC10 20).map (fun it => it.updated_at) = some 0 ∧
    (findPOItem (updatePurchaseOrderStatus { id := 2, status := .RECEIVED } "bob" 9 dbC10).1 5).map
      (fun l => l.received_quantity) = some 20 ∧
    findPurchaseOrder (updatePurchaseOrderStatus { id := 2, status := .RECEIVED } "bob" 9 dbC10).1 2 =
      some { id := 2, po_number := "PO-2", status := .RECEIVED, approved_by := none,
             created_by := "carol", updated_at := 9 } := by
  have h := C10_rereceive_not_write_free { id := 2, status := .RECEIVED }
    "bob" 9 dbC10
    { id := 2, po_number := "PO-2", status := .RECEIVED, approved_by := none,
      created_by := "carol", updated_at := 0 }
    rfl rfl (by decide) (by decide) (by decide) (by unfold LineIdsNodup; decide)
  have h3 := h.2.2.1
    { id := 5, purchase_order_id := 2, item_id := 20, quantity := 20,
      received_quantity := 20 }
    (by decide)
    { id := 20, name := "Y", sku := "Y-1", current_stock := 45,
      is_active := true, updated_at := 0, initial_stock := 30 }
    rfl
  have h4 := h.2.2.2.1
    { id := 5, purchase_order_id := 2, item_id := 20, quantity := 20,
      received_quantity := 20 }
    (by decide)
  refine ⟨h.2.1, h3, rfl, ?_, h.2.2.2.2⟩
  rw [h4]
  rfl

/-! ### C1: non-negativity of stock under every stock-affecting operation -/

theorem stocksNonneg_setItemStock (db : DB) (i : Nat) (s : Int) (now : Nat)
    (hs : 0 ≤ s) (h : StocksNonneg db) : StocksNonneg (setItemStock db i s now) := by
  intro it hit
  unfold setItemStock at hit
  dsimp only at hit
  obtain ⟨y, hy, hyeq⟩ := List.mem_map.mp hit
  by_cases hid : y.id == i
  · rw [if_pos hid] at hyeq
    rw [← hyeq]
    exact hs
  · rw [if_neg hid] at hyeq
    rw [← hyeq]
    exact h y hy

theorem stocksNonneg_appendAdjustment (db : DB) (a : StockAdjustment)
    (h : StocksNonneg db) : StocksNonneg (appendAdjustment db a) := h

theorem stocksNonneg_setLineReceived (db : DB) (lid : Nat) (q : Int)
    (h : StocksNonneg db) : StocksNonneg (setLineReceived db lid q) := h

theorem receivedWithin_setLineReceived (db : DB) (l : PurchaseOrderItem)
    (hmem : l ∈ db.purchaseOrderItems) (hnodup : LineIdsNodup db)
    (h : ReceivedWithinQuantity db) :
    ReceivedWithinQuantity (setLineReceived db l.id l.quantity) := by
  intro r' hr'
  unfold setLineReceived at hr'
  dsimp only at hr'
  obtain ⟨r, hrmem, hreq⟩ := List.mem_map.mp hr'
  by_cases hid : r.id == l.id
  · have hid' : r.id = l.id := by simpa using hid
    have hrl : r = l := by
      unfold LineIdsNodup at hnodup
      exact List.inj_on_of_nodup_map hnodup hrmem hmem hid'
    rw [if_pos hid] at hreq
    rw [← hreq, hrl]
  · rw [if_neg hid] at hreq
    rw [← hreq]
    exact h r hrmem

/-- The generic consumption loop preserves the non-negativity bundle: every
stock it writes passed the `newStock < 0` guard, and it never touches
purchase-order lines. -/
theorem consumeLinesUpdate_nonnegInv (woId : Nat) (wo : WorkOrder) (now : Nat) :
    ∀ (lines : List WorkOrderItem) (db : DB),
      NonnegInv db → NonnegInv (consumeLinesUpdate woId wo now lines db).1 := by
  intro lines
  induction lines with
  | nil =>
    intro db h
    exact h
  | cons line rest ih =>
    intro db h
    simp only [consumeLinesUpdate]
    by_cases hq : line.quantity_used > 0
    · rw [if_pos hq]
      cases hfind : findItem db line.item_id with
      | none => exact h
      | some item =>
        dsimp only
        by_cases hneg : item.current_stock - line.quantity_used < 0
        · rw [if_pos hneg]
          exact h
        · rw [if_neg hneg]
          refine ih _ ⟨?_, h.2.1, h.2.2⟩
          exact stocksNonneg_setItemStock db line.item_id _ now (not_lt.mp hneg) h.1
    · rw [if_neg hq]
      exact ih _ h

/-- The dedicated consumption loop preserves the non-negativity bundle. -/
theorem consumeLinesComplete_nonnegInv (workOrderId : Nat) (woNumber completedBy : String)
    (now : Nat) :
    ∀ (lines : List WorkOrderItem) (db : DB),
      NonnegInv db →
      NonnegInv (consumeLinesComplete workOrderId woNumber completedBy now lines db).1 := by
  intro lines
  induction lines with
  | nil =>
    intro db h
    exact h
  | cons line rest ih =>
    intro db h
    simp only [consumeLinesComplete]
    by_cases hq : line.quantity_used > 0
    · rw [if_pos hq]
      cases hfind : findItem db line.item_id with
      | none => exact h
      | some item =>
        dsimp only
        by_cases hlt : item.current_stock < line.quantity_used
        · rw [if_pos hlt]
          exact h
        · rw [if_neg hlt]
          refine ih _ ⟨?_, h.2.1, h.2.2⟩
          exact stocksNonneg_setItemStock db line.item_id _ now
            (sub_nonneg.mpr (not_lt.mp hlt)) h.1
    · rw [if_neg hq]
      exact ih _ h

theorem receiveStep_items (poId : Nat) (poNumber updatedBy : String) (now : Nat)
    (l : PurchaseOrderItem) (it : Item) (db : DB) :
    (receiveStep poId poNumber updatedBy now l it db).items =
      (setItemStock db l.item_id
        (it.current_stock + (l.quantity - l.received_quantity)) now).items := by
  unfold receiveStep
  dsimp only
  split
  · rfl
  · rfl

theorem receiveStep_lines (poId : Nat) (poNumber updatedBy : String) (now : Nat)
    (l : PurchaseOrderItem) (it : Item) (db : DB) :
    (receiveStep poId poNumber updatedBy now l it db).purchaseOrderItems =
      (setLineReceived db l.id l.quantity).purchaseOrderItems := by
  unfold receiveStep
  dsimp only
  split
  · rfl
  · rfl

theorem stocksNonneg_of_items_eq (db db2 : DB) (h : db2.items = db.items)
    (hs : StocksNonneg db) : StocksNonneg db2 := by
  intro it hit
  rw [h] at hit
  exact hs it hit

theorem receivedWithin_of_lines_eq (db db2 : DB)
    (h : db2.purchaseOrderItems = db.purchaseOrderItems)
    (hr : ReceivedWithinQuantity db) : ReceivedWithinQuantity db2 := by
  intro l hl
  rw [h] at hl
  exact hr l hl

theorem lineIdsNodup_of_lines_eq (db db2 : DB)
    (h : db2.purchaseOrderItems = db.purchaseOrderItems)
    (hn : LineIdsNodup db) : LineIdsNodup db2 := by
  unfold LineIdsNodup at hn ⊢
  rw [h]
  exact hn

/-- The receiving loop preserves the non-negativity bundle: every stock write
adds a non-negative remainder to a non-negative stock, and the only line
write re-establishes `received_quantity = quantity`. -/
theorem receiveLines_nonnegInv (poId : Nat) (poNumber updatedBy : String) (now : Nat) :
    ∀ (lines : List PurchaseOrderItem) (db : DB),
      (∀ l ∈ lines, l.received_quantity ≤ l.quantity) →
      (∀ l ∈ lines, l ∈ db.purchaseOrderItems) →
      (lines.map (fun l => l.id)).Nodup →
      NonnegInv db →
      NonnegInv (receiveLines poId poNumber updatedBy now lines db).1 := by
  intro lines
  induction lines with
  | nil =>
    intro db _ _ _ h
    exact h
  | cons l rest ih =>
    intro db hwq hsub hlnd h
    simp only [receiveLines]
    cases hfind : findItem db l.item_id with
    | none => exact h
    | some it =>
      dsimp only
      rw [List.map_cons] at hlnd
      obtain ⟨hln1, hln2⟩ := List.nodup_cons.mp hlnd
      have hrest_ne_id : ∀ l' ∈ rest, l'.id ≠ l.id := by
        intro l' hl' he
        exact hln1 (he ▸ List.mem_map_of_mem (fun x => x.id) hl')
      have hmem := hsub l (List.mem_cons_self l rest)
      have hstep : NonnegInv (receiveStep poId poNumber updatedBy now l it db) := by
        refine ⟨?_, ?_, ?_⟩
        · refine stocksNonneg_of_items_eq _ _ (receiveStep_items _ _ _ _ _ _ _) ?_
          refine stocksNonneg_setItemStock db l.item_id _ now ?_ h.1
          have h1 : 0 ≤ it.current_stock := h.1 it (findItem_mem hfind).1
          have h2 : 0 ≤ l.quantity - l.received_quantity :=
            sub_nonneg.mpr (hwq l (List.mem_cons_self l rest))
          exact add_nonneg h1 h2
        · refine receivedWithin_of_lines_eq _ _ (receiveStep_lines _ _ _ _ _ _ _) ?_
          exact receivedWithin_setLineReceived db l hmem h.2.2 h.2.1
        · refine lineIdsNodup_of_lines_eq _ _ (receiveStep_lines _ _ _ _ _ _ _) ?_
          exact lineIdsNodup_setLineReceived _ l.id l.quantity h.2.2
      refine ih _ (fun x hx => hwq x (List.mem_cons_of_mem l hx)) ?_ hln2 hstep
      intro l' hl'
      exact receiveStep_mem_lines _ _ _ _ _ _ _ _
        (hsub l' (List.mem_cons_of_mem l hl')) (hrest_ne_id l' hl')

theorem createStockAdjustment_nonnegInv (input : CreateStockAdjustmentInput)
    (createdBy : String) (now : Nat) (db : DB) (h : NonnegInv db) :
    NonnegInv (createStockAdjustment input createdBy now db).1 := by
  unfold createStockAdjustment
  cases hfind : findItem db input.item_id with
  | none => exact h
  | some item =>
    dsimp only
    by_cases hneg : item.current_stock + input.quantity_change < 0
    · rw [if_pos hneg]
      exact h
    · rw [if_neg hneg]
      exact ⟨stocksNonneg_setItemStock _ _ _ _ (not_lt.mp hneg) h.1, h.2.1, h.2.2⟩

theorem createItem_nonnegInv (input : CreateItemInput) (now : Nat) (db : DB)
    (hv : 0 ≤ input.current_stock) (h : NonnegInv db) :
    NonnegInv (createItem input now db).1 := by
  refine ⟨?_, h.2.1, h.2.2⟩
  intro it hit
  unfold createItem at hit
  dsimp only at hit
  rcases List.mem_append.mp hit with hmem | hmem
  · exact h.1 it hmem
  · rw [List.mem_singleton] at hmem
    rw [hmem]
    exact hv

theorem updateItem_nonnegInv (input : UpdateItemInput) (createdBy : String)
    (now : Nat) (db : DB)
    (hv : ∀ s, input.current_stock = some s → 0 ≤ s) (h : NonnegInv db) :
    NonnegInv (updateItem input createdBy now db).1 := by
  unfold updateItem
  cases hfind : findItem db input.id with
  | none => exact h
  | some existing =>
    dsimp only
    have h1 : StocksNonneg { db with items := db.items.map (fun it =>
        if it.id == input.id then
          { it with
              name := input.name.getD it.name
              current_stock := (input.current_stock).getD it.current_stock
              updated_at := now }
        else it) } := by
      intro it hit
      dsimp only at hit
      obtain ⟨y, hy, hyeq⟩ := List.mem_map.mp hit
      by_cases hid : y.id == input.id
      · rw [if_pos hid] at hyeq
        rw [← hyeq]
        dsimp only
        cases hcs : input.current_stock with
        | none => exact h.1 y hy
        | some s =>
          simpa using hv s hcs
      · rw [if_neg hid] at hyeq
        rw [← hyeq]
        exact h.1 y hy
    split
    · split
      · exact ⟨h1, h.2.1, h.2.2⟩
      · exact ⟨h1, h.2.1, h.2.2⟩
    · exact ⟨h1, h.2.1, h.2.2⟩

theorem updateWorkOrder_nonnegInv (input : UpdateWorkOrderInput) (now : Nat)
    (db : DB) (h : NonnegInv db) : NonnegInv (updateWorkOrder input now db).1 := by
  unfold updateWorkOrder
  cases hwo : findWorkOrder db input.id with
  | none => exact h
  | some wo =>
    dsimp only
    have htx : NonnegInv (updateWorkOrderTx input wo now db).1 := by
      unfold updateWorkOrderTx
      dsimp only
      have hdb1 : NonnegInv (updateWorkOrderRow db input.id (fun _ =>
          updatedWorkOrderOf input wo now
            (input.status == some WorkOrderStatus.COMPLETED &&
              wo.status != WorkOrderStatus.COMPLETED))) := h
      split
      · split
        · rename_i db2 u heq
          have hloop := consumeLinesUpdate_nonnegInv input.id (updatedWorkOrderOf input wo now
              (input.status == some WorkOrderStatus.COMPLETED &&
                wo.status != WorkOrderStatus.COMPLETED))
            now
            (List.filter (fun l => l.work_order_id == input.id)
              (updateWorkOrderRow db input.id (fun _ =>
                updatedWorkOrderOf input wo now
                  (input.status == some WorkOrderStatus.COMPLETED &&
                    wo.status != WorkOrderStatus.COMPLETED))).workOrderItems)
            (updateWorkOrderRow db input.id (fun _ =>
              updatedWorkOrderOf input wo now
                (input.status == some WorkOrderStatus.COMPLETED &&
                  wo.status != WorkOrderStatus.COMPLETED)))
            hdb1
          rw [heq] at hloop
          exact hloop
        · rename_i db2 e heq
          have hloop := consumeLinesUpdate_nonnegInv input.id (updatedWorkOrderOf input wo now
              (input.status == some WorkOrderStatus.COMPLETED &&
                wo.status != WorkOrderStatus.COMPLETED))
            now
            (List.filter (fun l => l.work_order_id == input.id)
              (updateWorkOrderRow db input.id (fun _ =>
                updatedWorkOrderOf input wo now
                  (input.status == some WorkOrderStatus.COMPLETED &&
                    wo.status != WorkOrderStatus.COMPLETED))).workOrderItems)
            (updateWorkOrderRow db input.id (fun _ =>
              updatedWorkOrderOf input wo now
                (input.status == some WorkOrderStatus.COMPLETED &&
                  wo.status != WorkOrderStatus.COMPLETED)))
            hdb1
          rw [heq] at hloop
          exact hloop
      · exact hdb1
    split
    · rename_i e heq
      exact h
    · rename_i db2 w heq
      rw [heq] at htx
      exact htx

theorem completeWorkOrder_nonnegInv (workOrderId : Nat) (completedBy : String)
    (now : Nat) (db : DB) (h : NonnegInv db) :
    NonnegInv (completeWorkOrder workOrderId completedBy now db).1 := by
  unfold completeWorkOrder
  have htx : NonnegInv (completeWorkOrderTx workOrderId completedBy now db).1 := by
    unfold completeWorkOrderTx
    cases hwo : findWorkOrder db workOrderId with
    | none => exact h
    | some wo =>
      dsimp only
      split
      · exact h
      · split
        · exact h
        · split
          · rename_i db2 e heq
            have hloop := consumeLinesComplete_nonnegInv workOrderId wo.wo_number
              completedBy now
              (List.filter (fun l => l.work_order_id == workOrderId) db.workOrderItems)
              db h
            rw [heq] at hloop
            exact hloop
          · rename_i db2 u heq
            have hloop := consumeLinesComplete_nonnegInv workOrderId wo.wo_number
              completedBy now
              (List.filter (fun l => l.work_order_id == workOrderId) db.workOrderItems)
              db h
            rw [heq] at hloop
            exact hloop
  split
  · rename_i e heq
    exact h
  · rename_i db2 w heq
    rw [heq] at htx
    exact htx

theorem updatePurchaseOrderStatus_nonnegInv (input : UpdatePurchaseOrderStatusInput)
    (updatedBy : String) (now : Nat) (db : DB) (h : NonnegInv db) :
    NonnegInv (updatePurchaseOrderStatus input updatedBy now db).1 := by
  unfold updatePurchaseOrderStatus
  cases hpo : findPurchaseOrder db input.id with
  | none => exact h
  | some po =>
    dsimp only
    have hdb1 : NonnegInv (updatePurchaseOrderRow db input.id (fun _ =>
        { po with
            status := input.status
            approved_by :=
              if input.status = .APPROVED then some updatedBy else po.approved_by
            updated_at := now })) := h
    split
    · have hloop := receiveLines_nonnegInv input.id po.po_number updatedBy now
        (List.filter (fun l => l.purchase_order_id == input.id)
          (updatePurchaseOrderRow db input.id (fun _ =>
            { po with
                status := input.status
                approved_by :=
                  if input.status = .APPROVED then some updatedBy else po.approved_by
                updated_at := now })).purchaseOrderItems)
        (updatePurchaseOrderRow db input.id (fun _ =>
          { po with
              status := input.status
              approved_by :=
                if input.status = .APPROVED then some updatedBy else po.approved_by
              updated_at := now }))
        (fun l hl => hdb1.2.1 l (List.mem_of_mem_filter hl))
        (fun l hl => List.mem_of_mem_filter hl)
        (by
          have hs : LineIdsNodup db := h.2.2
          unfold LineIdsNodup at hs
          exact ((List.filter_sublist db.purchaseOrderItems).map
            (fun l : PurchaseOrderItem => l.id)).nodup hs)
        hdb1
      split
      · rename_i db2 u heq
        rw [heq] at hloop
        exact hloop
      · rename_i db2 e heq
        rw [heq] at hloop
        exact hloop
    · exact hdb1

/-- Single-operation preservation of the non-negativity bundle. -/
theorem nonnegInv_applyOp (op : StockOp) (db : DB) (hv : op.Valid)
    (h : NonnegInv db) : NonnegInv (applyOp op db) := by
  cases op with
  | create i n => exact createItem_nonnegInv i n db hv h
  | adjust i c n => exact createStockAdjustment_nonnegInv i c n db h
  | updItem i c n => exact updateItem_nonnegInv i c n db hv h
  | updWO i n => exact updateWorkOrder_nonnegInv i n db h
  | completeWO w c n => exact completeWorkOrder_nonnegInv w c n db h
  | updPOStatus i u n => exact updatePurchaseOrderStatus_nonnegInv i u n db h

theorem nonnegInv_applyOps :
    ∀ (ops : List StockOp) (db : DB), (∀ op ∈ ops, op.Valid) → NonnegInv db →
      NonnegInv (applyOps ops db) := by
  intro ops
  induction ops with
  | nil =>
    intro db _ h
    exact h
  | cons op rest ih =>
    intro db hv h
    unfold applyOps
    rw [List.foldl_cons]
    exact ih _ (fun o ho => hv o (List.mem_cons_of_mem op ho))
      (nonnegInv_applyOp op db (hv op (List.mem_cons_self op rest)) h)

/-- C1: starting from any store with non-negative stocks (and the
serial-key/received-within-quantity facts every reachable store satisfies),
no sequence of stock-affecting operations with zod-valid inputs can drive any
item's `current_stock` negative; and a ledger `apply` whose delta would make
`new_stock < 0` fails with the negative-stock error and commits nothing —
the store is returned exactly as it was, so no adjustment row is written and
the item is unchanged. -/
theorem C1_stock_never_negative :
    (∀ (ops : List StockOp) (db : DB), (∀ op ∈ ops, op.Valid) → NonnegInv db →
      StocksNonneg (applyOps ops db)) ∧
    (∀ (input : CreateStockAdjustmentInput) (createdBy : String) (now : Nat)
        (db : DB) (item : Item),
      findItem db input.item_id = some item →
      item.current_stock + input.quantity_change < 0 →
      createStockAdjustment input createdBy now db =
        (db, .error (negativeStockMsg item.current_stock input.quantity_change
          (item.current_stock + input.quantity_change)))) := by
  constructor
  · intro ops db hv h
    exact (nonnegInv_applyOps ops db hv h).1
  · intro input createdBy now db item hit hneg
    unfold createStockAdjustment
    rw [hit]
    dsimp only
    rw [if_pos hneg]

/-- Closed witness for `C1_stock_never_negative`: the spec's scenario — stock
70 after a -30 adjustment from 100; a further -80 adjustment is rejected with
the negative-stock error and commits nothing. -/
theorem C1_stock_never_negative_witness :
    StocksNonneg (applyOps
      [.create { name := "W", sku := "W-9", current_stock := 100 } 1,
       .adjust { item_id := 1, adjustment_type := .ADJUSTMENT, quantity_change := -30,
                 reason := "count", reference_id := none, reference_type := none } "amy" 2,
       .adjust { item_id := 1, adjustment_type := .ADJUSTMENT, quantity_change := -80,
                 reason := "oops", reference_id := none, reference_type := none } "amy" 3]
      { items := [], stockAdjustments := [], workOrders := [], workOrderItems := [],
        purchaseOrders := [], purchaseOrderItems := [] }) ∧
    createStockAdjustment
      { item_id := 7, adjustment_type := .ADJUSTMENT, quantity_change := -180,
        reason := "oops", reference_id := none, reference_type := none } "amy" 5 dbC3 =
      (dbC3, .error (negativeStockMsg 100 (-180) (-80))) := by
  constructor
  · exact (C1_stock_never_negative.1 _ _
      (by
        intro op hop
        fin_cases hop <;> simp [StockOp.Valid])
      (by
        refine ⟨?_, ?_, ?_⟩
        · intro it hit
          cases hit
        · intro l hl
          cases hl
        · simp [LineIdsNodup]))
  · have h := C1_stock_never_negative.2
      { item_id := 7, adjustment_type := .ADJUSTMENT, quantity_change := -180,
        reason := "oops", reference_id := none, reference_type := none } "amy" 5 dbC3
      { id := 7, name := "Gear", sku := "G-1", current_stock := 100,
        is_active := true, updated_at := 0, initial_stock := 100 }
      rfl (by decide)
    simpa using h

/-! ### C2: conservation of stock through the ledger -/

theorem adjSum_of_adj_eq (db db2 : DB) (i : Nat)
    (h : db2.stockAdjustments = db.stockAdjustments) : adjSum db2 i = adjSum db i := by
  unfold adjSum
  rw [h]

theorem conservation_of_eq (db db2 : DB) (hi : db2.items = db.items)
    (ha : db2.stockAdjustments = db.stockAdjustments) (h : Conservation db) :
    Conservation db2 := by
  intro it hit
  rw [hi] at hit
  rw [adjSum_of_adj_eq db db2 it.id ha]
  exact h it hit

theorem adjSum_append (db : DB) (a : StockAdjustment) (i : Nat) :
    adjSum { db with stockAdjustments := db.stockAdjustments ++ [a] } i =
      adjSum db i + (if a.item_id = i then a.quantity_change else 0) := by
  unfold adjSum
  dsimp only
  rw [List.filter_append, List.map_append, List.sum_append]
  by_cases h : a.item_id = i
  · have hb : (a.item_id == i) = true := by simpa using h
    simp [List.filter, hb, h]
  · have hb : (a.item_id == i) = false := by simpa using h
    simp [List.filter, hb, h]

theorem adjSum_eq_zero_of_no_ref (db : DB) (i : Nat)
    (h : ∀ a ∈ db.stockAdjustments, a.item_id ≠ i) : adjSum db i = 0 := by
  unfold adjSum
  have hfil : db.stockAdjustments.filter (fun a => a.item_id == i) = [] := by
    rw [List.filter_eq_nil_iff]
    intro a ha
    simpa using h a ha
  rw [hfil]
  rfl

/-- A unique-keyed item lookup pins any same-id member to the found row. -/
theorem eq_of_mem_of_findItem (db : DB) (i : Nat) (it y : Item)
    (hnodup : ItemIdsNodup db) (hfind : findItem db i = some it)
    (hy : y ∈ db.items) (hyid : y.id = i) : y = it := by
  have hmem := (findItem_mem hfind).1
  have hid := (findItem_mem hfind).2
  unfold ItemIdsNodup at hnodup
  exact List.inj_on_of_nodup_map hnodup hy hmem (by rw [hyid, hid])

/-- Conservation is preserved by one "ledger write": map the items with an
id- and initial-stock-preserving transform that sets the target's stock to
`previous + delta` and leaves every other stock alone, while appending the
one audit row carrying exactly that delta. -/
theorem conservation_write (db : DB) (g : Item → Item) (a : StockAdjustment)
    (i : Nat) (s : Int) (it : Item)
    (hnodup : ItemIdsNodup db) (hfind : findItem db i = some it)
    (hid : ∀ y, (g y).id = y.id) (hinit : ∀ y, (g y).initial_stock = y.initial_stock)
    (hoff : ∀ y, ¬ y.id = i → (g y).current_stock = y.current_stock)
    (hon : ∀ y, y.id = i → (g y).current_stock = s)
    (ha : a.item_id = i) (hs : s = it.current_stock + a.quantity_change)
    (hcons : Conservation db) :
    Conservation { db with items := db.items.map g,
                           stockAdjustments := db.stockAdjustments ++ [a] } := by
  intro x hx
  dsimp only at hx
  obtain ⟨y, hy, hyeq⟩ := List.mem_map.mp hx
  subst hyeq
  have hsum : adjSum { db with items := db.items.map g,
                               stockAdjustments := db.stockAdjustments ++ [a] } (g y).id =
      adjSum db (g y).id + (if a.item_id = (g y).id then a.quantity_change else 0) :=
    adjSum_append { db with items := db.items.map g } a (g y).id
  rw [hsum, hid y, hinit y]
  by_cases hyid : y.id = i
  · have hyit : y = it := eq_of_mem_of_findItem db i it y hnodup hfind hy hyid
    rw [hon y hyid, hs]
    have hcy := hcons y hy
    rw [if_pos (by rw [ha, hyid])]
    rw [hyit] at hcy ⊢
    rw [hcy]
    ring
  · rw [hoff y hyid]
    rw [if_neg (by rw [ha]; exact fun he => hyid he.symm)]
    rw [add_zero]
    exact hcons y hy

/-- Conservation is preserved by a stock-value-preserving rewrite of the
target row (no audit row): the transform keeps ids, initial stocks, every
other stock, and writes the target's stock back with the value it had. -/
theorem conservation_write_norow (db : DB) (g : Item → Item) (i : Nat) (s : Int)
    (it : Item)
    (hnodup : ItemIdsNodup db) (hfind : findItem db i = some it)
    (hid : ∀ y, (g y).id = y.id) (hinit : ∀ y, (g y).initial_stock = y.initial_stock)
    (hoff : ∀ y, ¬ y.id = i → (g y).current_stock = y.current_stock)
    (hon : ∀ y, y.id = i → (g y).current_stock = s)
    (hs : s = it.current_stock)
    (hcons : Conservation db) :
    Conservation { db with items := db.items.map g } := by
  intro x hx
  dsimp only at hx
  obtain ⟨y, hy, hyeq⟩ := List.mem_map.mp hx
  subst hyeq
  have hsum : adjSum { db with items := db.items.map g } (g y).id =
      adjSum db (g y).id := rfl
  rw [hsum, hid y, hinit y]
  by_cases hyid : y.id = i
  · have hyit : y = it := eq_of_mem_of_findItem db i it y hnodup hfind hy hyid
    rw [hon y hyid, hs, hyit]
    exact hcons it (findItem_mem hfind).1
  · rw [hoff y hyid]
    exact hcons y hy

theorem itemIdsNodup_map (db : DB) (g : Item → Item) (hid : ∀ y, (g y).id = y.id)
    (h : ItemIdsNodup db) :
    ((db.items.map g).map (fun it => it.id)).Nodup := by
  rw [List.map_map]
  have heq : ((fun it : Item => it.id) ∘ g) = fun it : Item => it.id := by
    funext y
    exact hid y
  rw [heq]
  exact h

theorem adjRefsExist_write (db : DB) (g : Item → Item) (a : StockAdjustment)
    (hid : ∀ y, (g y).id = y.id)
    (hex : ∃ it ∈ db.items, it.id = a.item_id)
    (h : AdjRefsExist db) :
    AdjRefsExist { db with items := db.items.map g,
                           stockAdjustments := db.stockAdjustments ++ [a] } := by
  intro b hb
  dsimp only at hb ⊢
  rcases List.mem_append.mp hb with hmem | hmem
  · obtain ⟨it, hit, hitid⟩ := h b hmem
    exact ⟨g it, List.mem_map_of_mem g hit, by rw [hid it]; exact hitid⟩
  · rw [List.mem_singleton] at hmem
    subst hmem
    obtain ⟨it, hit, hitid⟩ := hex
    exact ⟨g it, List.mem_map_of_mem g hit, by rw [hid it]; exact hitid⟩

theorem adjRefsExist_map (db : DB) (g : Item → Item) (hid : ∀ y, (g y).id = y.id)
    (h : AdjRefsExist db) :
    AdjRefsExist { db with items := db.items.map g } := by
  intro b hb
  obtain ⟨it, hit, hitid⟩ := h b hb
  exact ⟨g it, List.mem_map_of_mem g hit, by rw [hid it]; exact hitid⟩

theorem lt_freshItemId (db : DB) : ∀ it ∈ db.items, it.id < freshItemId db := by
  unfold freshItemId
  have hgen : ∀ (L : List Item) (it : Item), it ∈ L →
      it.id ≤ L.foldr (fun x m => max x.id m) 0 := by
    intro L
    induction L with
    | nil =>
      intro it hit
      cases hit
    | cons b t ih =>
      intro it hit
      rcases List.mem_cons.mp hit with rfl | hmem
      · exact le_max_left _ _
      · exact le_trans (ih it hmem) (le_max_right _ _)
  intro it hit
  exact Nat.lt_succ_of_le (hgen db.items it hit)

theorem adjRefsExist_of_eq (db db2 : DB) (hi : db2.items = db.items)
    (ha : db2.stockAdjustments = db.stockAdjustments) (h : AdjRefsExist db) :
    AdjRefsExist db2 := by
  intro b hb
  rw [ha] at hb
  obtain ⟨it, hit, hitid⟩ := h b hb
  exact ⟨it, by rw [hi]; exact hit, hitid⟩

theorem itemIdsNodup_of_eq (db db2 : DB) (hi : db2.items = db.items)
    (h : ItemIdsNodup db) : ItemIdsNodup db2 := by
  unfold ItemIdsNodup at h ⊢
  rw [hi]
  exact h

theorem conservation_map_stockpres (db : DB) (g : Item → Item)
    (hid : ∀ y, (g y).id = y.id) (hinit : ∀ y, (g y).initial_stock = y.initial_stock)
    (hstock : ∀ y, (g y).current_stock = y.current_stock)
    (hcons : Conservation db) :
    Conservation { db with items := db.items.map g } := by
  intro x hx
  dsimp only at hx
  obtain ⟨y, hy, hyeq⟩ := List.mem_map.mp hx
  subst hyeq
  have hsum : adjSum { db with items := db.items.map g } (g y).id =
      adjSum db (g y).id := rfl
  rw [hsum, hid y, hinit y, hstock y]
  exact hcons y hy

/-- One guarded ledger write (stock update plus matching audit row) preserves
the conservation bundle. -/
theorem ledgerInv_write (db : DB) (i : Nat) (s : Int) (now : Nat)
    (adj : StockAdjustment) (it : Item)
    (hfind : findItem db i = some it)
    (ha : adj.item_id = i) (hs : s = it.current_stock + adj.quantity_change)
    (h : LedgerInv db) :
    LedgerInv (appendAdjustment (setItemStock db i s now) adj) := by
  obtain ⟨hc, hr, hn, hw, hl⟩ := h
  have hgid : ∀ y : Item, (if y.id == i then
      { y with current_stock := s, updated_at := now } else y).id = y.id := by
    intro y
    by_cases hy : y.id == i
    · rw [if_pos hy]
    · rw [if_neg hy]
  have hginit : ∀ y : Item, (if y.id == i then
      { y with current_stock := s, updated_at := now } else y).initial_stock =
      y.initial_stock := by
    intro y
    by_cases hy : y.id == i
    · rw [if_pos hy]
    · rw [if_neg hy]
  have hgoff : ∀ y : Item, ¬ y.id = i → (if y.id == i then
      { y with current_stock := s, updated_at := now } else y).current_stock =
      y.current_stock := by
    intro y hy
    rw [if_neg (by simpa using hy)]
  have hgon : ∀ y : Item, y.id = i → (if y.id == i then
      { y with current_stock := s, updated_at := now } else y).current_stock = s := by
    intro y hy
    rw [if_pos (by simpa using hy)]
  refine ⟨?_, ?_, ?_, hw, hl⟩
  · exact conservation_write db _ adj i s it hn hfind hgid hginit hgoff hgon ha hs hc
  · exact adjRefsExist_write db _ adj hgid
      ⟨it, (findItem_mem hfind).1, by rw [(findItem_mem hfind).2, ha]⟩ hr
  · exact itemIdsNodup_map db _ hgid hn

/-- The generic consumption loop preserves the conservation bundle. -/
theorem consumeLinesUpdate_ledgerInv (woId : Nat) (wo : WorkOrder) (now : Nat) :
    ∀ (lines : List WorkOrderItem) (db : DB),
      LedgerInv db → LedgerInv (consumeLinesUpdate woId wo now lines db).1 := by
  intro lines
  induction lines with
  | nil =>
    intro db h
    exact h
  | cons line rest ih =>
    intro db h
    simp only [consumeLinesUpdate]
    by_cases hq : line.quantity_used > 0
    · rw [if_pos hq]
      cases hfind : findItem db line.item_id with
      | none => exact h
      | some item =>
        dsimp only
        by_cases hneg : item.current_stock - line.quantity_used < 0
        · rw [if_pos hneg]
          exact h
        · rw [if_neg hneg]
          refine ih _ (ledgerInv_write db line.item_id _ now _ item hfind rfl ?_ h)
          exact sub_eq_add_neg item.current_stock line.quantity_used
    · rw [if_neg hq]
      exact ih _ h

/-- The dedicated consumption loop preserves the conservation bundle. -/
theorem consumeLinesComplete_ledgerInv (workOrderId : Nat)
    (woNumber completedBy : String) (now : Nat) :
    ∀ (lines : List WorkOrderItem) (db : DB),
      LedgerInv db →
      LedgerInv (consumeLinesComplete workOrderId woNumber completedBy now lines db).1 := by
  intro lines
  induction lines with
  | nil =>
    intro db h
    exact h
  | cons line rest ih =>
    intro db h
    simp only [consumeLinesComplete]
    by_cases hq : line.quantity_used > 0
    · rw [if_pos hq]
      cases hfind : findItem db line.item_id with
      | none => exact h
      | some item =>
        dsimp only
        by_cases hlt : item.current_stock < line.quantity_used
        · rw [if_pos hlt]
          exact h
        · rw [if_neg hlt]
          refine ih _ (ledgerInv_write db line.item_id _ now _ item hfind rfl ?_ h)
          exact sub_eq_add_neg item.current_stock line.quantity_used
    · rw [if_neg hq]
      exact ih _ h

/-- One receiving step preserves the conservation bundle: a positive
remainder is a guarded ledger write with a matching RECEIVED row; a zero
remainder rewrites the stock with its own value and writes no row. -/
theorem receiveStep_ledgerInv (poId : Nat) (poNumber updatedBy : String) (now : Nat)
    (l : PurchaseOrderItem) (it : Item) (db : DB)
    (hit : findItem db l.item_id = some it)
    (hmem : l ∈ db.purchaseOrderItems)
    (h : LedgerInv db) :
    LedgerInv (receiveStep poId poNumber updatedBy now l it db) := by
  obtain ⟨hc, hr, hn, hw, hl⟩ := h
  have hq0 : 0 ≤ l.quantity - l.received_quantity := sub_nonneg.mpr (hw l hmem)
  have hrecv : ReceivedWithinQuantity (receiveStep poId poNumber updatedBy now l it db) := by
    refine receivedWithin_of_lines_eq _ _ (receiveStep_lines _ _ _ _ _ _ _) ?_
    exact receivedWithin_setLineReceived _ l hmem hl hw
  have hlid : LineIdsNodup (receiveStep poId poNumber updatedBy now l it db) := by
    refine lineIdsNodup_of_lines_eq _ _ (receiveStep_lines _ _ _ _ _ _ _) ?_
    exact lineIdsNodup_setLineReceived _ l.id l.quantity hl
  by_cases hq : l.quantity - l.received_quantity > 0
  · have hwrite := ledgerInv_write db l.item_id
      (it.current_stock + (l.quantity - l.received_quantity)) now
      (receivedRowOf poId poNumber updatedBy l it) it hit rfl rfl
      ⟨hc, hr, hn, hw, hl⟩
    have heq : receiveStep poId poNumber updatedBy now l it db =
        { (appendAdjustment (setItemStock db l.item_id
            (it.current_stock + (l.quantity - l.received_quantity)) now)
            (receivedRowOf poId poNumber updatedBy l it)) with
          purchaseOrderItems :=
            (receiveStep poId poNumber updatedBy now l it db).purchaseOrderItems } := by
      unfold receiveStep
      dsimp only
      rw [if_pos hq]
      rfl
    refine ⟨?_, ?_, ?_, hrecv, hlid⟩
    · refine conservation_of_eq _ _ ?_ ?_ hwrite.1
      · rw [heq]
      · rw [heq]
    · refine adjRefsExist_of_eq _ _ ?_ ?_ hwrite.2.1
      · rw [heq]
      · rw [heq]
    · refine itemIdsNodup_of_eq _ _ ?_ hwrite.2.2.1
      rw [heq]
  · have hqz : l.quantity - l.received_quantity = 0 := le_antisymm (not_lt.mp hq) hq0
    have hnorow := conservation_write_norow db
      (fun y => if y.id == l.item_id then
        { y with
            current_stock := it.current_stock + (l.quantity - l.received_quantity)
            updated_at := now }
        else y)
      l.item_id (it.current_stock + (l.quantity - l.received_quantity)) it hn hit
      (by
        intro y
        dsimp only
        by_cases hy : y.id == l.item_id
        · rw [if_pos hy]
        · rw [if_neg hy])
      (by
        intro y
        dsimp only
        by_cases hy : y.id == l.item_id
        · rw [if_pos hy]
        · rw [if_neg hy])
      (by
        intro y hy
        dsimp only
        rw [if_neg (by simpa using hy)])
      (by
        intro y hy
        dsimp only
        rw [if_pos (by simpa using hy)])
      (by rw [hqz, add_zero])
      hc
    have heq : receiveStep poId poNumber updatedBy now l it db =
        { (setItemStock db l.item_id
            (it.current_stock + (l.quantity - l.received_quantity)) now) with
          purchaseOrderItems :=
            (receiveStep poId poNumber updatedBy now l it db).purchaseOrderItems } := by
      unfold receiveStep
      dsimp only
      rw [if_neg hq]
      rfl
    refine ⟨?_, ?_, ?_, hrecv, hlid⟩
    · refine conservation_of_eq _ _ ?_ ?_ hnorow
      · rw [heq]
        rfl
      · rw [heq]
        rfl
    · have hmapref := adjRefsExist_map db
        (fun y => if y.id == l.item_id then
          { y with
              current_stock := it.current_stock + (l.quantity - l.received_quantity)
              updated_at := now }
          else y)
        (by
          intro y
          dsimp only
          by_cases hy : y.id == l.item_id
          · rw [if_pos hy]
          · rw [if_neg hy])
        hr
      refine adjRefsExist_of_eq _ _ ?_ ?_ hmapref
      · rw [heq]
        rfl
      · rw [heq]
        rfl
    · have hmapnd := itemIdsNodup_map db
        (fun y => if y.id == l.item_id then
          { y with
              current_stock := it.current_stock + (l.quantity - l.received_quantity)
              updated_at := now }
          else y)
        (by
          intro y
          dsimp only
          by_cases hy : y.id == l.item_id
          · rw [if_pos hy]
          · rw [if_neg hy])
        hn
      unfold ItemIdsNodup
      rw [receiveStep_items]
      exact hmapnd

/-- The receiving loop preserves the conservation bundle. -/
theorem receiveLines_ledgerInv (poId : Nat) (poNumber updatedBy : String) (now : Nat) :
    ∀ (lines : List PurchaseOrderItem) (db : DB),
      (∀ l ∈ lines, l ∈ db.purchaseOrderItems) →
      (lines.map (fun l => l.id)).Nodup →
      LedgerInv db →
      LedgerInv (receiveLines poId poNumber updatedBy now lines db).1 := by
  intro lines
  induction lines with
  | nil =>
    intro db _ _ h
    exact h
  | cons l rest ih =>
    intro db hsub hlnd h
    simp only [receiveLines]
    cases hfind : findItem db l.item_id with
    | none => exact h
    | some it =>
      dsimp only
      rw [List.map_cons] at hlnd
      obtain ⟨hln1, hln2⟩ := List.nodup_cons.mp hlnd
      have hrest_ne_id : ∀ l' ∈ rest, l'.id ≠ l.id := by
        intro l' hl' he
        exact hln1 (he ▸ List.mem_map_of_mem (fun x => x.id) hl')
      refine ih _ ?_ hln2
        (receiveStep_ledgerInv poId poNumber updatedBy now l it db hfind
          (hsub l (List.mem_cons_self l rest)) h)
      intro l' hl'
      exact receiveStep_mem_lines _ _ _ _ _ _ _ _
        (hsub l' (List.mem_cons_of_mem l hl')) (hrest_ne_id l' hl')

theorem createStockAdjustment_ledgerInv (input : CreateStockAdjustmentInput)
    (createdBy : String) (now : Nat) (db : DB) (h : LedgerInv db) :
    LedgerInv (createStockAdjustment input createdBy now db).1 := by
  unfold createStockAdjustment
  cases hfind : findItem db input.item_id with
  | none => exact h
  | some item =>
    dsimp only
    by_cases hneg : item.current_stock + input.quantity_change < 0
    · rw [if_pos hneg]
      exact h
    · rw [if_neg hneg]
      exact ledgerInv_write db input.item_id _ now _ item hfind rfl rfl h

theorem createItem_ledgerInv (input : CreateItemInput) (now : Nat) (db : DB)
    (h : LedgerInv db) : LedgerInv (createItem input now db).1 := by
  obtain ⟨hc, hr, hn, hw, hl⟩ := h
  refine ⟨?_, ?_, ?_, hw, hl⟩
  · intro x hx
    unfold createItem at hx
    dsimp only at hx
    rcases List.mem_append.mp hx with hmem | hmem
    · exact hc x hmem
    · rw [List.mem_singleton] at hmem
      subst hmem
      dsimp only
      have hzero : adjSum (createItem input now db).1 (freshItemId db) = 0 := by
        refine adjSum_eq_zero_of_no_ref _ _ ?_
        intro a ha hai
        obtain ⟨it2, hit2, hit2id⟩ := hr a ha
        have hlt := lt_freshItemId db it2 hit2
        rw [hit2id, hai] at hlt
        exact lt_irrefl _ hlt
      rw [hzero, add_zero]
  · intro b hb
    obtain ⟨it2, hit2, hit2id⟩ := hr b hb
    refine ⟨it2, ?_, hit2id⟩
    unfold createItem
    dsimp only
    exact List.mem_append_left _ hit2
  · unfold ItemIdsNodup createItem
    dsimp only
    rw [List.map_append, List.nodup_append]
    refine ⟨hn, List.nodup_singleton _, ?_⟩
    intro a ha hb
    rw [List.map_singleton, List.mem_singleton] at hb
    subst hb
    obtain ⟨it2, hit2, hit2id⟩ := List.mem_map.mp ha
    have hlt := lt_freshItemId db it2 hit2
    dsimp only at hit2id
    rw [hit2id] at hlt
    exact lt_irrefl _ hlt

theorem updateItem_ledgerInv (input : UpdateItemInput) (createdBy : String)
    (now : Nat) (db : DB) (h : LedgerInv db) :
    LedgerInv (updateItem input createdBy now db).1 := by
  obtain ⟨hc, hr, hn, hw, hl⟩ := h
  unfold updateItem
  cases hfind : findItem db input.id with
  | none => exact ⟨hc, hr, hn, hw, hl⟩
  | some existing =>
    dsimp only
    have hitid : existing.id = input.id := (findItem_mem hfind).2
    cases hcs : input.current_stock with
    | none =>
      dsimp only
      refine ⟨?_, ?_, ?_, hw, hl⟩
      · refine conservation_map_stockpres db _ ?_ ?_ ?_ hc
        · intro y
          dsimp only
          by_cases hy : y.id == input.id
          · rw [if_pos hy]
          · rw [if_neg hy]
        · intro y
          dsimp only
          by_cases hy : y.id == input.id
          · rw [if_pos hy]
          · rw [if_neg hy]
        · intro y
          dsimp only
          by_cases hy : y.id == input.id
          · rw [if_pos hy]
            rfl
          · rw [if_neg hy]
      · refine adjRefsExist_map db _ ?_ hr
        intro y
        dsimp only
        by_cases hy : y.id == input.id
        · rw [if_pos hy]
        · rw [if_neg hy]
      · unfold ItemIdsNodup
        refine itemIdsNodup_map db _ ?_ hn
        intro y
        dsimp only
        by_cases hy : y.id == input.id
        · rw [if_pos hy]
        · rw [if_neg hy]
    | some ns =>
      dsimp only
      by_cases hne : ns ≠ existing.current_stock
      · rw [if_pos hne]
        refine ⟨?_, ?_, ?_, hw, hl⟩
        · refine conservation_write db _ _ input.id ns existing hn hfind ?_ ?_ ?_ ?_
            rfl (by ring) hc
          · intro y
            dsimp only
            by_cases hy : y.id == input.id
            · rw [if_pos hy]
            · rw [if_neg hy]
          · intro y
            dsimp only
            by_cases hy : y.id == input.id
            · rw [if_pos hy]
            · rw [if_neg hy]
          · intro y hy
            dsimp only
            rw [if_neg (by simpa using hy)]
          · intro y hy
            dsimp only
            rw [if_pos (by simpa using hy)]
            rfl
        · refine adjRefsExist_write db _ _ ?_ ⟨existing, (findItem_mem hfind).1, hitid⟩ hr
          intro y
          dsimp only
          by_cases hy : y.id == input.id
          · rw [if_pos hy]
          · rw [if_neg hy]
        · unfold ItemIdsNodup
          refine itemIdsNodup_map db _ ?_ hn
          intro y
          dsimp only
          by_cases hy : y.id == input.id
          · rw [if_pos hy]
          · rw [if_neg hy]
      · rw [if_neg hne]
        have hns : ns = existing.current_stock := not_ne_iff.mp hne
        refine ⟨?_, ?_, ?_, hw, hl⟩
        · refine conservation_write_norow db _ input.id ns existing hn hfind ?_ ?_ ?_ ?_
            hns hc
          · intro y
            dsimp only
            by_cases hy : y.id == input.id
            · rw [if_pos hy]
            · rw [if_neg hy]
          · intro y
            dsimp only
            by_cases hy : y.id == input.id
            · rw [if_pos hy]
            · rw [if_neg hy]
          · intro y hy
            dsimp only
            rw [if_neg (by simpa using hy)]
          · intro y hy
            dsimp only
            rw [if_pos (by simpa using hy)]
            rfl
        · refine adjRefsExist_map db _ ?_ hr
          intro y
          dsimp only
          by_cases hy : y.id == input.id
          · rw [if_pos hy]
          · rw [if_neg hy]
        · unfold ItemIdsNodup
          refine itemIdsNodup_map db _ ?_ hn
          intro y
          dsimp only
          by_cases hy : y.id == input.id
          · rw [if_pos hy]
          · rw [if_neg hy]

theorem updateWorkOrder_ledgerInv (input : UpdateWorkOrderInput) (now : Nat)
    (db : DB) (h : LedgerInv db) : LedgerInv (updateWorkOrder input now db).1 := by
  unfold updateWorkOrder
  cases hwo : findWorkOrder db input.id with
  | none => exact h
  | some wo =>
    dsimp only
    have htx : LedgerInv (updateWorkOrderTx input wo now db).1 := by
      unfold updateWorkOrderTx
      dsimp only
      have hdb1 : LedgerInv (updateWorkOrderRow db input.id (fun _ =>
          updatedWorkOrderOf input wo now
            (input.status == some WorkOrderStatus.COMPLETED &&
              wo.status != WorkOrderStatus.COMPLETED))) := h
      split
      · split
        · rename_i db2 u heq
          have hloop := consumeLinesUpdate_ledgerInv input.id
            (updatedWorkOrderOf input wo now
              (input.status == some WorkOrderStatus.COMPLETED &&
                wo.status != WorkOrderStatus.COMPLETED))
            now
            (List.filter (fun l => l.work_order_id == input.id)
              (updateWorkOrderRow db input.id (fun _ =>
                updatedWorkOrderOf input wo now
                  (input.status == some WorkOrderStatus.COMPLETED &&
                    wo.status != WorkOrderStatus.COMPLETED))).workOrderItems)
            (updateWorkOrderRow db input.id (fun _ =>
              updatedWorkOrderOf input wo now
                (input.status == some WorkOrderStatus.COMPLETED &&
                  wo.status != WorkOrderStatus.COMPLETED)))
            hdb1
          rw [heq] at hloop
          exact hloop
        · rename_i db2 e heq
          have hloop := consumeLinesUpdate_ledgerInv input.id
            (updatedWorkOrderOf input wo now
              (input.status == some WorkOrderStatus.COMPLETED &&
                wo.status != WorkOrderStatus.COMPLETED))
            now
            (List.filter (fun l => l.work_order_id == input.id)
              (updateWorkOrderRow db input.id (fun _ =>
                updatedWorkOrderOf input wo now
                  (input.status == some WorkOrderStatus.COMPLETED &&
                    wo.status != WorkOrderStatus.COMPLETED))).workOrderItems)
            (updateWorkOrderRow db input.id (fun _ =>
              updatedWorkOrderOf input wo now
                (input.status == some WorkOrderStatus.COMPLETED &&
                  wo.status != WorkOrderStatus.COMPLETED)))
            hdb1
          rw [heq] at hloop
          exact hloop
      · exact hdb1
    split
    · rename_i e heq
      exact h
    · rename_i db2 w heq
      rw [heq] at htx
      exact htx

theorem completeWorkOrder_ledgerInv (workOrderId : Nat) (completedBy : String)
    (now : Nat) (db : DB) (h : LedgerInv db) :
    LedgerInv (completeWorkOrder workOrderId completedBy now db).1 := by
  unfold completeWorkOrder
  have htx : LedgerInv (completeWorkOrderTx workOrderId completedBy now db).1 := by
    unfold completeWorkOrderTx
    cases hwo : findWorkOrder db workOrderId with
    | none => exact h
    | some wo =>
      dsimp only
      split
      · exact h
      · split
        · exact h
        · split
          · rename_i db2 e heq
            have hloop := consumeLinesComplete_ledgerInv workOrderId wo.wo_number
              completedBy now
              (List.filter (fun l => l.work_order_id == workOrderId) db.workOrderItems)
              db h
            rw [heq] at hloop
            exact hloop
          · rename_i db2 u heq
            have hloop := consumeLinesComplete_ledgerInv workOrderId wo.wo_number
              completedBy now
              (List.filter (fun l => l.work_order_id == workOrderId) db.workOrderItems)
              db h
            rw [heq] at hloop
            exact hloop
  split
  · rename_i e heq
    exact h
  · rename_i db2 w heq
    rw [heq] at htx
    exact htx

theorem updatePurchaseOrderStatus_ledgerInv (input : UpdatePurchaseOrderStatusInput)
    (updatedBy : String) (now : Nat) (db : DB) (h : LedgerInv db) :
    LedgerInv (updatePurchaseOrderStatus input updatedBy now db).1 := by
  unfold updatePurchaseOrderStatus
  cases hpo : findPurchaseOrder db input.id with
  | none => exact h
  | some po =>
    dsimp only
    have hdb1 : LedgerInv (updatePurchaseOrderRow db input.id (fun _ =>
        { po with
            status := input.status
            approved_by :=
              if input.status = .APPROVED then some updatedBy else po.approved_by
            updated_at := now })) := h
    split
    · have hloop := receiveLines_ledgerInv input.id po.po_number updatedBy now
        (List.filter (fun l => l.purchase_order_id == input.id)
          (updatePurchaseOrderRow db input.id (fun _ =>
            { po with
                status := input.status
                approved_by :=
                  if input.status = .APPROVED then some updatedBy else po.approved_by
                updated_at := now })).purchaseOrderItems)
        (updatePurchaseOrderRow db input.id (fun _ =>
          { po with
              status := input.status
              approved_by :=
                if input.status = .APPROVED then some updatedBy else po.approved_by
              updated_at := now }))
        (fun l hl => List.mem_of_mem_filter hl)
        (by
          have hs : LineIdsNodup db := h.2.2.2.2
          unfold LineIdsNodup at hs
          exact ((List.filter_sublist db.purchaseOrderItems).map
            (fun l : PurchaseOrderItem => l.id)).nodup hs)
        hdb1
      split
      · rename_i db2 u heq
        rw [heq] at hloop
        exact hloop
      · rename_i db2 e heq
        rw [heq] at hloop
        exact hloop
    · exact hdb1

theorem ledgerInv_applyOp (op : StockOp) (db : DB) (h : LedgerInv db) :
    LedgerInv (applyOp op db) := by
  cases op with
  | create i n => exact createItem_ledgerInv i n db h
  | adjust i c n => exact createStockAdjustment_ledgerInv i c n db h
  | updItem i c n => exact updateItem_ledgerInv i c n db h
  | updWO i n => exact updateWorkOrder_ledgerInv i n db h
  | completeWO w c n => exact completeWorkOrder_ledgerInv w c n db h
  | updPOStatus i u n => exact updatePurchaseOrderStatus_ledgerInv i u n db h

theorem ledgerInv_applyOps :
    ∀ (ops : List StockOp) (db : DB), LedgerInv db →
      LedgerInv (applyOps ops db) := by
  intro ops
  induction ops with
  | nil =>
    intro db h
    exact h
  | cons op rest ih =>
    intro db h
    unfold applyOps
    rw [List.foldl_cons]
    exact ih _ (ledgerInv_applyOp op db h)

/-- C2: conservation.  Starting from any store satisfying the conservation
bundle (every item's stock equals its creation stock plus its ledger sum,
ledger rows reference existing items, serial keys unique, line received
within quantity), every sequence of stock-affecting operations — including
item creation — preserves the conservation equation for every item; and
`createItem` writes no StockAdjustment row even when the created item's
`current_stock` is nonzero (the item's `initial_stock` bookkeeping equals
that stock, so the equation holds with an empty ledger history). -/
theorem C2_stock_conservation :
    (∀ (ops : List StockOp) (db : DB), LedgerInv db →
      Conservation (applyOps ops db)) ∧
    (∀ (input : CreateItemInput) (now : Nat) (db : DB),
      (createItem input now db).1.stockAdjustments = db.stockAdjustments ∧
      (createItem input now db).2 =
        .ok { id := freshItemId db
              name := input.name
              sku := input.sku
              current_stock := input.current_stock
              is_active := true
              updated_at := now
              initial_stock := input.current_stock }) := by
  constructor
  · intro ops db h
    exact (ledgerInv_applyOps ops db h).1
  · intro input now db
    exact ⟨rfl, rfl⟩

/-- Closed witness for `C2_stock_conservation`: from the empty store, create
an item with nonzero initial stock (no ledger row), adjust it by -30, update
it to 95 via the generic item edit, and receive nothing; conservation holds
in the final store, and the creation wrote no adjustment row. -/
theorem C2_stock_conservation_witness :
    Conservation (applyOps
      [.create { name := "W", sku := "W-2", current_stock := 100 } 1,
       .adjust { item_id := 1, adjustment_type := .ADJUSTMENT, quantity_change := -30,
                 reason := "count", reference_id := none, reference_type := none } "amy" 2,
       .updItem { id := 1, name := none, current_stock := some 95 } "amy" 3]
      { items := [], stockAdjustments := [], workOrders := [], workOrderItems := [],
        purchaseOrders := [], purchaseOrderItems := [] }) ∧
    (createItem { name := "W", sku := "W-2", current_stock := 100 } 1
      { items := [], stockAdjustments := [], workOrders := [], workOrderItems := [],
        purchaseOrders := [], purchaseOrderItems := [] }).1.stockAdjustments = [] := by
  constructor
  · refine C2_stock_conservation.1 _ _ ?_
    refine ⟨?_, ?_, ?_, ?_, ?_⟩
    · intro it hit
      cases hit
    · intro a ha
      cases ha
    · simp [ItemIdsNodup]
    · intro l hl
      cases hl
    · simp [LineIdsNodup]
  · exact (C2_stock_conservation.2
      { name := "W", sku := "W-2", current_stock := 100 } 1
      { items := [], stockAdjustments := [], workOrders := [], workOrderItems := [],
        purchaseOrders := [], purchaseOrderItems := [] }).1

end ErpSmb
